import Mathlib

/-!
Shallow embedding of the gmodel B-rep geometric modeling kernel
(src/gmodel.cpp) and verification of its specification claims.

The C++ heap of reference-counted `Object`s is modeled as a growable list
of object records indexed by the process-unique id (ids are assigned as
`next_id++`, i.e. the id of a new object is the current length of the
list).  The `Point` subclass payload (position, size) is flattened into
the record; positions use exact integers (every configuration the claims
exercise is integral, and the source's double arithmetic is the numeric
collaborator, out of scope).  Orientations are `Nat` 0/1 exactly as the
source's ints (`FORWARD = 0`, `REVERSE = 1`).  Out-of-bounds vector
accesses that are undefined behaviour or `abort()` in the source are
modeled with `Option`; `std::vector::at` bounds checks map to `Option`
returns as well.
-/

namespace gmod

/-- Entity kind, mirroring the integer type codes of gmodel.cpp. -/
inductive ObjType
  | POINT | LINE | ARC | ELLIPSE | SPLINE | PLANE | RULED | VOLUME | LOOP | SHELL | GROUP
  deriving DecidableEq, Repr

open ObjType

/-- `type_dims` table: topological dimension per kind (-1 for aggregates). -/
def type_dims : ObjType → Int
  | POINT => 0
  | LINE => 1
  | ARC => 1
  | ELLIPSE => 1
  | SPLINE => 1
  | PLANE => 2
  | RULED => 2
  | VOLUME => 3
  | LOOP => -1
  | SHELL => -1
  | GROUP => -1

/-- `is_entity`: the source tests `t <= VOLUME`. -/
def is_entity : ObjType → Bool
  | LOOP => false
  | SHELL => false
  | GROUP => false
  | _ => true

/-- `is_face`: PLANE or RULED. -/
def is_face : ObjType → Bool
  | PLANE => true
  | RULED => true
  | _ => false

/-- `is_boundary`: LOOP or SHELL. -/
def is_boundary : ObjType → Bool
  | LOOP => true
  | SHELL => true
  | _ => false

/-- `get_boundary_type`: SHELL for dimension-3 cells, LOOP for dimension-2
cells; the source returns -1 otherwise (and constructing an object of
type -1 is meaningless), modeled as `none`. -/
def get_boundary_type (cell_type : ObjType) : Option ObjType :=
  match type_dims cell_type with
  | 3 => some SHELL
  | 2 => some LOOP
  | _ => none

/-- 3D vector with exact integer coordinates (standing in for the numeric
collaborator's doubles; the claims only exercise integral data). -/
structure Vec where
  x : Int
  y : Int
  z : Int
  deriving DecidableEq, Repr

instance : Add Vec := ⟨fun a b => ⟨a.x + b.x, a.y + b.y, a.z + b.z⟩⟩

instance : Sub Vec := ⟨fun a b => ⟨a.x - b.x, a.y - b.y, a.z - b.z⟩⟩

instance : Inhabited Vec := ⟨⟨0, 0, 0⟩⟩

/-- An oriented reference: `Use = (dir, target object id)`; dir is 0
(FORWARD) or 1 (REVERSE) as in the source's ints. -/
structure Use where
  dir : Nat
  obj : Nat
  deriving DecidableEq, Repr

/-- One heap object.  The common `Object` fields plus the flattened
`Point` payload (`pos`, `size`, meaningful when `type = POINT`). -/
structure Obj where
  type : ObjType
  used : List Use
  helpers : List Nat
  embedded : List Nat
  scratch : Int
  pos : Vec
  size : ℚ
  deriving DecidableEq, Repr

/-- A fresh object as built by the `Object` constructor: empty relation
lists, scratch = -1 (unset). -/
def mkObj (t : ObjType) : Obj :=
  ⟨t, [], [], [], -1, ⟨0, 0, 0⟩, 0⟩

instance : Inhabited Obj := ⟨mkObj POINT⟩

/-- The heap: object with id `i` lives at index `i`; `next_id` is the
length of the list. -/
structure GState where
  objs : List Obj
  deriving DecidableEq, Repr

instance : Inhabited GState := ⟨⟨[]⟩⟩

/-- Dereference an id (out-of-range reads, which are UB on the C++ side,
yield the default record, whose scratch is -1). -/
def getObj (s : GState) (i : Nat) : Obj :=
  s.objs.getD i default

/-- Replace the record of a live id (no-op out of range, like the UB it
models never occurring in well-formed runs). -/
def modifyObj (s : GState) (i : Nat) (f : Obj → Obj) : GState :=
  ⟨s.objs.set i (f (getObj s i))⟩

def setScratch (s : GState) (i : Nat) (v : Int) : GState :=
  modifyObj s i (fun o => { o with scratch := v })

def incScratch (s : GState) (i : Nat) : GState :=
  modifyObj s i (fun o => { o with scratch := o.scratch + 1 })

/-- `new_object`: allocate a fresh object of the given type, returning its
id (= old heap length, since ids are assigned by `next_id++`). -/
def new_object (s : GState) (t : ObjType) : GState × Nat :=
  (⟨s.objs ++ [mkObj t]⟩, s.objs.length)

/-- `add_use`: append an oriented use to the owner's use list. -/
def add_use (s : GState) (by_ : Nat) (dir : Nat) (of : Nat) : GState :=
  modifyObj s by_ (fun o => { o with used := o.used ++ [⟨dir, of⟩] })

/-- `add_helper`: append a helper reference. -/
def add_helper (s : GState) (owner : Nat) (h : Nat) : GState :=
  modifyObj s owner (fun o => { o with helpers := o.helpers ++ [h] })

/-- `embed`: append an embedded reference. -/
def embed (s : GState) (into : Nat) (e : Nat) : GState :=
  modifyObj s into (fun o => { o with embedded := o.embedded ++ [e] })

/-- `get_used_dir`: orientation of the first use of `used` in `user`'s
use list; the failed `assert` on absence is modeled as `none`. -/
def get_used_dir (s : GState) (user target : Nat) : Option Nat :=
  ((getObj s user).used.find? (fun u => u.obj == target)).map Use.dir

/-- `get_objs_used`: project the use list to its targets. -/
def get_objs_used (s : GState) (user : Nat) : List Nat :=
  (getObj s user).used.map Use.obj

/-- `edge_point(edge, i)`: target of use `i` (a curve's endpoint 0/1).
The source indexes the vector unchecked; out-of-range is modeled by a
default use. -/
def edge_point (s : GState) (edge : Nat) (i : Nat) : Nat :=
  ((getObj s edge).used.getD i ⟨0, 0⟩).obj

/-- Logical negation of a C int orientation (`!dir`). -/
def lognot (d : Nat) : Nat :=
  if d == 0 then 1 else 0

/-- BFS push: if the child's scratch is unset, mark it visited (1) and
append it to the queue. -/
def pushKid (st : GState × List Nat) (child : Nat) : GState × List Nat :=
  if (getObj st.1 child).scratch == -1 then
    (setScratch st.1 child 1, st.2 ++ [child])
  else st

/-- One BFS expansion of `current`: push unvisited used targets, then
helpers (iff requested), then embedded (iff requested). -/
def bfsVisit (inclH inclE : Bool) (st : GState × List Nat) (current : Nat) :
    GState × List Nat :=
  let st1 := ((getObj st.1 current).used.map Use.obj).foldl pushKid st
  let st2 := if inclH then (getObj st1.1 current).helpers.foldl pushKid st1 else st1
  if inclE then (getObj st2.1 current).embedded.foldl pushKid st2 else st2

/-- The BFS work loop of `get_closure` (`while (first != queue.size())`),
with fuel standing in for the loop's termination (heap length + 1 steps
suffice for any well-formed heap). -/
def bfsLoop (inclH inclE : Bool) : Nat → GState × List Nat → Nat → GState × List Nat
  | 0, st, _ => st
  | fuel + 1, st, first =>
    if h : first < st.2.length then
      bfsLoop inclH inclE fuel (bfsVisit inclH inclE st (st.2.get ⟨first, h⟩)) (first + 1)
    else st

/-- Restore scratch to unset over a list of ids (`queue[i]->scratch = -1`). -/
def resetScratch (s : GState) (l : List Nat) : GState :=
  l.foldl (fun s i => setScratch s i (-1)) s

/-- `get_closure(obj, include_helpers, include_embedded)`: BFS from `obj`,
marking visitation in scratch, then restore scratch and reverse the
discovery order. -/
def get_closure (s : GState) (obj : Nat) (include_helpers include_embedded : Bool) :
    GState × List Nat :=
  let st := bfsLoop include_helpers include_embedded (s.objs.length + 1) (s, [obj]) 0
  (resetScratch st.1 st.2, st.2.reverse)

/-- `filter_by_dim`: ids of the given topological dimension, order kept. -/
def filter_by_dim (s : GState) (objs : List Nat) (dim : Int) : List Nat :=
  objs.filter (fun o => type_dims (getObj s o).type == dim)

/-- `filter_points`: the dimension-0 members (the `Point` downcast is a
no-op in the flattened model). -/
def filter_points (s : GState) (objs : List Nat) : List Nat :=
  filter_by_dim s objs 0

/-- `default_size = 0.1`. -/
def default_size : ℚ := 1 / 10

/-- `new_point` (the bare `Point` constructor). -/
def new_point (s : GState) : GState × Nat :=
  new_object s POINT

/-- Store a point's position. -/
def setPos (s : GState) (i : Nat) (v : Vec) : GState :=
  modifyObj s i (fun o => { o with pos := v })

/-- Store a point's discretization size. -/
def setSize (s : GState) (i : Nat) (sz : ℚ) : GState :=
  modifyObj s i (fun o => { o with size := sz })

/-- `new_point2(v)`: fresh point at `v` with the default size. -/
def new_point2 (s : GState) (v : Vec) : GState × Nat :=
  let (s, p) := new_point s
  (setSize (setPos s p v) p default_size, p)

/-- `new_point3(v, size)`. -/
def new_point3 (s : GState) (v : Vec) (size : ℚ) : GState × Nat :=
  let (s, p) := new_point s
  (setSize (setPos s p v) p size, p)

/-- `new_line`. -/
def new_line (s : GState) : GState × Nat :=
  new_object s LINE

/-- `new_line2(start, end)`: line with two Forward endpoint uses. -/
def new_line2 (s : GState) (start end_ : Nat) : GState × Nat :=
  let (s, l) := new_line s
  let s := add_use s l 0 start
  let s := add_use s l 0 end_
  (s, l)

/-- `new_arc2(start, center, end)`: center is a helper, not a use. -/
def new_arc2 (s : GState) (start center end_ : Nat) : GState × Nat :=
  let (s, a) := new_object s ARC
  let s := add_use s a 0 start
  let s := add_helper s a center
  let s := add_use s a 0 end_
  (s, a)

/-- `arc_center`: helper 0. -/
def arc_center (s : GState) (arc : Nat) : Nat :=
  (getObj s arc).helpers.getD 0 0

/-- `new_ellipse2(start, center, major_pt, end)`. -/
def new_ellipse2 (s : GState) (start center major_pt end_ : Nat) : GState × Nat :=
  let (s, e) := new_object s ELLIPSE
  let s := add_use s e 0 start
  let s := add_helper s e center
  let s := add_helper s e major_pt
  let s := add_use s e 0 end_
  (s, e)

/-- `ellipse_center`: helper 0. -/
def ellipse_center (s : GState) (e : Nat) : Nat :=
  (getObj s e).helpers.getD 0 0

/-- `ellipse_major_pt`: helper 1. -/
def ellipse_major_pt (s : GState) (e : Nat) : Nat :=
  (getObj s e).helpers.getD 1 0

/-- A point transform (`Transform`), driving every sweep. -/
abbrev Transform : Type := Vec → Vec

/-- `Extruded`: the lateral entity and the far-end entity of a sweep.
The source's field `end` is a Lean keyword, so it is named `tip` here. -/
structure Extruded where
  middle : Nat
  tip : Nat
  deriving DecidableEq, Repr

instance : Inhabited Extruded := ⟨⟨0, 0⟩⟩

/-- `extrude_point2(start, tr)`: far point = transformed copy (same
size), lateral = line from start to it. -/
def extrude_point2 (s : GState) (start : Nat) (tr : Transform) : GState × Extruded :=
  let (s, end_) := new_point3 s (tr (getObj s start).pos) (getObj s start).size
  let (s, middle) := new_line2 s start end_
  (s, ⟨middle, end_⟩)

/-- `extrude_point(start, v)`: translation sweep. -/
def extrude_point (s : GState) (start : Nat) (v : Vec) : GState × Extruded :=
  extrude_point2 s start (fun a => a + v)

/-- `extrude_points`: sweep each point and record its result index in its
scratch slot (the sweep deduplication mechanism). -/
def extrude_points (s : GState) (points : List Nat) (tr : Transform) :
    GState × List Extruded :=
  points.foldl
    (fun st p =>
      let (s', e) := extrude_point2 st.1 p tr
      (setScratch s' p (Int.ofNat st.2.length), st.2 ++ [e]))
    (s, [])

/-- `at(v, i)`: `std::vector::at` with an int index; out of range throws,
modeled as `none`. -/
def vecAt (v : List Extruded) (i : Int) : Option Extruded :=
  if h : 0 ≤ i ∧ i.toNat < v.length then some (v.get ⟨i.toNat, h.2⟩) else none

/-- `new_loop`. -/
def new_loop (s : GState) : GState × Nat :=
  new_object s LOOP

/-- `new_plane`. -/
def new_plane (s : GState) : GState × Nat :=
  new_object s PLANE

/-- `new_plane2(loop)`. -/
def new_plane2 (s : GState) (loop : Nat) : GState × Nat :=
  let (s, p) := new_plane s
  (add_use s p 0 loop, p)

/-- `new_ruled`. -/
def new_ruled (s : GState) : GState × Nat :=
  new_object s RULED

/-- `new_ruled2(loop)`. -/
def new_ruled2 (s : GState) (loop : Nat) : GState × Nat :=
  let (s, p) := new_ruled s
  (add_use s p 0 loop, p)

/-- `new_shell`. -/
def new_shell (s : GState) : GState × Nat :=
  new_object s SHELL

/-- `new_volume2(shell)`. -/
def new_volume2 (s : GState) (shell : Nat) : GState × Nat :=
  let (s, v) := new_object s VOLUME
  (add_use s v 0 shell, v)

/-- `new_group`. -/
def new_group (s : GState) : GState × Nat :=
  new_object s GROUP

/-- `add_to_group`: a Forward use. -/
def add_to_group (s : GState) (group o : Nat) : GState :=
  add_use s group 0 o

/-- `volume_shell`: target of the volume's use 0. -/
def volume_shell (s : GState) (v : Nat) : Nat :=
  (((getObj s v).used).getD 0 ⟨0, 0⟩).obj

/-- `face_loop`: target of the face's use 0 (its outer loop). -/
def face_loop (s : GState) (face : Nat) : Nat :=
  (((getObj s face).used).getD 0 ⟨0, 0⟩).obj

/-- `loop_points`: per use, the leading endpoint `edge_point(use.obj,
use.dir)`. -/
def loop_points (s : GState) (loop : Nat) : List Nat :=
  (getObj s loop).used.map (fun u => edge_point s u.obj u.dir)

/-- `extrude_edge3(start, tr, left, right)`: the quad-strip sweep of one
curve.  Builds the boundary loop (start Forward, right lateral Forward,
new end curve Reverse, left lateral Reverse), the end curve by the same
constructor kind with transformed helper copies, and wraps the loop in a
Plane (for a Line) or a RuledSurface (other curve kinds).  A `start` that
is not a curve leaves the source with null pointers; modeled as `none`. -/
def extrude_edge3 (s : GState) (start : Nat) (tr : Transform)
    (left right : Extruded) : Option (GState × Extruded) :=
  let (s, loop) := new_loop s
  let s := add_use s loop 0 start
  let s := add_use s loop 0 right.middle
  match (getObj s start).type with
  | LINE =>
    let (s, end_) := new_line2 s left.tip right.tip
    let s := add_use s loop 1 end_
    let s := add_use s loop 1 left.middle
    let (s, middle) := new_plane2 s loop
    some (s, ⟨middle, end_⟩)
  | ARC =>
    let sc := arc_center s start
    let (s, ec) := new_point3 s (tr (getObj s sc).pos) (getObj s sc).size
    let (s, end_) := new_arc2 s left.tip ec right.tip
    let s := add_use s loop 1 end_
    let s := add_use s loop 1 left.middle
    let (s, middle) := new_ruled2 s loop
    some (s, ⟨middle, end_⟩)
  | ELLIPSE =>
    let sc := ellipse_center s start
    let (s, ec) := new_point3 s (tr (getObj s sc).pos) (getObj s sc).size
    let sm := ellipse_major_pt s start
    let (s, em) := new_point3 s (tr (getObj s sm).pos) (getObj s sm).size
    let (s, end_) := new_ellipse2 s left.tip ec em right.tip
    let s := add_use s loop 1 end_
    let s := add_use s loop 1 left.middle
    let (s, middle) := new_ruled2 s loop
    some (s, ⟨middle, end_⟩)
  | SPLINE =>
    let (s, ehs) := (getObj s start).helpers.foldl
      (fun st h =>
        let (s', eh) := new_point3 st.1 (tr (getObj st.1 h).pos) (getObj st.1 h).size
        (s', st.2 ++ [eh]))
      (s, [])
    let (s, end_) := new_object s SPLINE
    let s := add_use s end_ 0 left.tip
    let s := ehs.foldl (fun s' h => add_helper s' end_ h) s
    let s := add_use s end_ 0 right.tip
    let s := add_use s loop 1 end_
    let s := add_use s loop 1 left.middle
    let (s, middle) := new_ruled2 s loop
    some (s, ⟨middle, end_⟩)
  | _ => none

/-- `extrude_edges`: sweep each curve, looking its endpoints' point-sweep
results up through the endpoints' scratch slots, and record the curve's
own result index in its scratch slot. -/
def extrude_edges (s : GState) (edges : List Nat) (tr : Transform)
    (point_extrusions : List Extruded) : Option (GState × List Extruded) :=
  edges.foldlM
    (fun st edge => do
      let left ← vecAt point_extrusions (getObj st.1 (edge_point st.1 edge 0)).scratch
      let right ← vecAt point_extrusions (getObj st.1 (edge_point st.1 edge 1)).scratch
      let (s', e) ← extrude_edge3 st.1 edge tr left right
      some (setScratch s' edge (Int.ofNat st.2.length), st.2 ++ [e]))
    (s, ([] : List Extruded))

/-- `extrude_loop4(start, shell, shell_dir, edge_extrusions)`: wire the end
loop from the edges' end curves (original orientations) and add each
lateral surface to the shell with orientation `use.dir XOR shell_dir`. -/
def extrude_loop4 (s : GState) (start shell : Nat) (shell_dir : Nat)
    (edge_extrusions : List Extruded) : Option (GState × Extruded) := do
  let (s, end_) := new_loop s
  let s ← (getObj s start).used.foldlM
    (fun s' u => do
      let e ← vecAt edge_extrusions (getObj s' u.obj).scratch
      some (add_use s' end_ u.dir e.tip))
    s
  let s ← (getObj s start).used.foldlM
    (fun s' u => do
      let e ← vecAt edge_extrusions (getObj s' u.obj).scratch
      some (add_use s' shell (u.dir ^^^ shell_dir) e.middle))
    s
  some (s, ⟨shell, end_⟩)

/-- `extrude_loop3(start, tr, shell, shell_dir)`: sweep the boundary
points then the boundary edges, wire via `extrude_loop4`, then restore
every touched scratch slot.  (The source allocates a dead `end` loop at
entry; kept for id faithfulness.) -/
def extrude_loop3 (s : GState) (start : Nat) (tr : Transform)
    (shell : Nat) (shell_dir : Nat) : Option (GState × Extruded) := do
  let (s, _dead) := new_loop s
  let start_points := loop_points s start
  let start_edges := get_objs_used s start
  let (s, point_extrusions) := extrude_points s start_points tr
  let (s, edge_extrusions) ← extrude_edges s start_edges tr point_extrusions
  let (s, result) ← extrude_loop4 s start shell shell_dir edge_extrusions
  let s := resetScratch s start_points
  let s := resetScratch s start_edges
  some (s, result)

/-- `extrude_face3(face, edge_extrusions)`: shell = original face
Reverse, new end face Forward, plus one lateral shell contribution per
boundary loop; the result volume wraps the shell. -/
def extrude_face3 (s : GState) (face : Nat)
    (edge_extrusions : List Extruded) : Option (GState × Extruded) := do
  if type_dims (getObj s face).type ≠ 2 then none else
  let (s, end_) ←
    match (getObj s face).type with
    | PLANE => some (new_plane s)
    | RULED => some (new_ruled s)
    | _ => none
  let (s, shell) := new_shell s
  let s := add_use s shell 1 face
  let s := add_use s shell 0 end_
  let s ← (getObj s face).used.foldlM
    (fun s' u => do
      let (s'', r) ← extrude_loop4 s' u.obj shell u.dir edge_extrusions
      some (add_use s'' end_ u.dir r.tip))
    s
  let (s, middle) := new_volume2 s shell
  some (s, ⟨middle, end_⟩)

/-- `extrude_face2(face, tr)`: closure (uses + embedded, no helpers),
sweep all points and edges once, build via `extrude_face3`, restore
scratch. -/
def extrude_face2 (s : GState) (face : Nat) (tr : Transform) :
    Option (GState × Extruded) := do
  let (s, closure) := get_closure s face false true
  let start_points := filter_points s closure
  let start_edges := filter_by_dim s closure 1
  let (s, point_extrusions) := extrude_points s start_points tr
  let (s, edge_extrusions) ← extrude_edges s start_edges tr point_extrusions
  let (s, result) ← extrude_face3 s face edge_extrusions
  let s := resetScratch s start_points
  let s := resetScratch s start_edges
  some (s, result)

/-- `extrude_face(face, v)`. -/
def extrude_face (s : GState) (face : Nat) (v : Vec) : Option (GState × Extruded) :=
  extrude_face2 s face (fun a => a + v)

/-- `extrude_face_group(face_group, tr)`: one shared closure for the
whole group, then a per-face `extrude_face3`, then a Group of volumes and
a Group of end faces. -/
def extrude_face_group (s : GState) (face_group : Nat) (tr : Transform) :
    Option (GState × Extruded) := do
  let (s, closure) := get_closure s face_group false true
  let start_points := filter_points s closure
  let start_edges := filter_by_dim s closure 1
  let (s, point_extrusions) := extrude_points s start_points tr
  let (s, edge_extrusions) ← extrude_edges s start_edges tr point_extrusions
  let (s, face_extrusions) ← (getObj s face_group).used.foldlM
    (fun st u => do
      let (s', e) ← extrude_face3 st.1 u.obj edge_extrusions
      some (s', st.2 ++ [e]))
    (s, ([] : List Extruded))
  let s := resetScratch s start_points
  let s := resetScratch s start_edges
  let (s, volume_group) := new_group s
  let (s, end_face_group) := new_group s
  let s := face_extrusions.foldl
    (fun s' e => add_to_group (add_to_group s' volume_group e.middle) end_face_group e.tip)
    s
  some (s, ⟨volume_group, end_face_group⟩)

/-- `new_line3(origin, span)`: sweep a fresh point. -/
def new_line3 (s : GState) (origin span : Vec) : GState × Nat :=
  let (s, p) := new_point2 s origin
  let (s, e) := extrude_point s p span
  (s, e.middle)

/-- `extrude_edge(start, v)`: sweep both endpoints, then the curve. -/
def extrude_edge (s : GState) (start : Nat) (v : Vec) : Option (GState × Extruded) :=
  let (s, left) := extrude_point s (edge_point s start 0) v
  let (s, right) := extrude_point s (edge_point s start 1) v
  extrude_edge3 s start (fun a => a + v) left right

/-- `new_square(origin, x, y)`: sweep a line. -/
def new_square (s : GState) (origin x y : Vec) : Option (GState × Nat) := do
  let (s, l) := new_line3 s origin x
  let (s, e) ← extrude_edge s l y
  some (s, e.middle)

/-- `new_cube(origin, x, y, z)`: sweep a square. -/
def new_cube (s : GState) (origin x y z : Vec) : Option (GState × Nat) := do
  let (s, sq) ← new_square s origin x y
  let (s, e) ← extrude_face s sq z
  some (s, e.middle)

/-- `get_cube_face(cube, which)`: use `which` of the cube's shell. -/
def get_cube_face (s : GState) (cube : Nat) (which : Nat) : Nat :=
  (((getObj s (volume_shell s cube)).used).getD which ⟨0, 0⟩).obj

/-- First pass of `collect_assembly_boundary`: walk the assembly's cells,
check all cells share one kind (failed `assert` modeled as `none`), and
collect every oriented use of every cell's `used[0]` boundary aggregate
(`cell->used[0]` on a cell without uses is UB, modeled as `none`). -/
def gatherCellUses (s : GState) : List Use → Option ObjType → Option (Option ObjType × List Use)
  | [], ct => some (ct, [])
  | cu :: rest, ct =>
    let cell := getObj s cu.obj
    let ct' := match ct with
      | none => cell.type
      | some t => t
    if cell.type = ct' then
      match cell.used.head? with
      | none => none
      | some bu => do
        let (ctOut, us) ← gatherCellUses s rest (some ct')
        some (ctOut, (getObj s bu.obj).used ++ us)
    else none

/-- `collect_assembly_boundary(assembly)`: tally occurrence counts per
target facet in its scratch slot (reset to 0, then increment per
occurrence), emit a fresh boundary aggregate holding the uses whose
target's count is 1, in original relative order, then unset every
touched scratch slot.  (An empty assembly leaves `cell_type = -1` and
the source then reads `type_dims[-1]`: modeled as `none`, like the
mismatched-kind assert.) -/
def collect_assembly_boundary (s : GState) (assembly : Nat) : Option (GState × Nat) :=
  match gatherCellUses s (getObj s assembly).used none with
  | none => none
  | some (none, _) => none
  | some (some ct, uses) =>
    match get_boundary_type ct with
    | none => none
    | some bt =>
      let s1 := uses.foldl (fun s' u => setScratch s' u.obj 0) s
      let s2 := uses.foldl (fun s' u => incScratch s' u.obj) s1
      let sb := new_object s2 bt
      let survivors := uses.filter (fun u => (getObj sb.1 u.obj).scratch == 1)
      let s4 := modifyObj sb.1 sb.2 (fun o => { o with used := o.used ++ survivors })
      let s5 := uses.foldl (fun s' u => setScratch s' u.obj (-1)) s4
      some (s5, sb.2)

/-- The boundary aggregate a cell contributes to collection: the target
of its use 0 (`cell->used[0].obj`). -/
def cell_boundary (s : GState) (cell : Nat) : Nat :=
  ((getObj s cell).used.headD ⟨0, 0⟩).obj

/-- The uses gathered from a given cell list: per cell, the uses of that
cell's FIRST boundary aggregate only. -/
def collectUsesOf (s : GState) (cus : List Use) : List Use :=
  cus.flatMap (fun cu => (getObj s (cell_boundary s cu.obj)).used)

/-- Every oriented use `collect_assembly_boundary` gathers: per cell of
the assembly, the uses of that cell's FIRST boundary aggregate only. -/
def collectUses (s : GState) (assembly : Nat) : List Use :=
  collectUsesOf s (getObj s assembly).used

/-- `insert_into(into, o)`: a face inserts its outer loop as a Reverse
hole; a volume inserts its shell Reverse; a group inserts its collected
assembly boundary Reverse (kind mismatch asserts; other kinds abort). -/
def insert_into (s : GState) (into o : Nat) : Option GState :=
  if is_face (getObj s o).type then
    if is_face (getObj s into).type then
      some (add_use s into 1 (face_loop s o))
    else none
  else if (getObj s o).type = VOLUME then
    if (getObj s into).type = VOLUME then
      some (add_use s into 1 (volume_shell s o))
    else none
  else if (getObj s o).type = GROUP then do
    let (s, boundary) ← collect_assembly_boundary s o
    if get_boundary_type (getObj s into).type = some (getObj s boundary).type then
      some (add_use s into 1 boundary)
    else none
  else none

/-- `weld_volume_face_into(big_volume, small_volume, big_face,
small_face)`: insert the small face's loop as a hole into the big face,
then add the small face to the big volume's shell with the logical
negation of its orientation in the small volume's shell. -/
def weld_volume_face_into (s : GState) (big_volume small_volume big_volume_face small_volume_face : Nat) :
    Option GState := do
  let s ← insert_into s big_volume_face small_volume_face
  let d ← get_used_dir s (volume_shell s small_volume) small_volume_face
  some (add_use s (volume_shell s big_volume) (lognot d) small_volume_face)

/-- `copy_object`: a fresh clone — Points clone position and size, other
kinds clone only the kind. -/
def copy_object (s : GState) (object : Nat) : GState × Nat :=
  if (getObj s object).type = POINT then
    new_point3 s (getObj s object).pos (getObj s object).size
  else
    new_object s (getObj s object).type

/-- The clone-and-rewire walk of `copy_closure`: clone each entity in
closure order and rewire its helper/use lists to the clones of its
dependencies, looked up by scratch index.  The source's
`assert(idx < co->scratch)` (and the equivalent bounds-checked
`at(out_closure, idx)`) is modeled as `none`. -/
def copyWalk (s : GState) : List Nat → List Nat → Option (GState × List Nat)
  | [], out => some (s, out)
  | co :: rest, out => do
    let (s, oco) := copy_object s co
    let s ← (getObj s co).helpers.foldlM
      (fun s' coh => do
        let idx := (getObj s' coh).scratch
        if idx < (getObj s' co).scratch ∧ 0 ≤ idx ∧ idx.toNat < out.length then
          some (add_helper s' oco (out.getD idx.toNat 0))
        else none)
      s
    let s ← (getObj s co).used.foldlM
      (fun s' cou => do
        let idx := (getObj s' cou.obj).scratch
        if idx < (getObj s' co).scratch ∧ 0 ≤ idx ∧ idx.toNat < out.length then
          some (add_use s' oco cou.dir (out.getD idx.toNat 0))
        else none)
      s
    copyWalk s rest (out ++ [oco])

/-- `copy_closure(object)`: full closure (helpers and embedded included),
scratch = position index, clone children-first, restore scratch, return
the clone of the root (last in sequence). -/
def copy_closure (s : GState) (object : Nat) : Option (GState × Nat) := do
  let (s, closure) := get_closure s object true true
  let s := (List.range closure.length).foldl
    (fun s' i => setScratch s' (closure.getD i 0) (Int.ofNat i)) s
  let (s, out_closure) ← copyWalk s closure []
  let s := resetScratch s closure
  let root ← out_closure.getLast?
  some (s, root)

/-- The per-point incidence entries of `unscramble_loop`'s multimap:
each curve use contributes `(endpoint 0, Forward)` and `(endpoint 1,
Reverse)`.  `equal_range` iterates entries of one key in insertion
order, which a filter over this ordered list reproduces. -/
def loopIncidence (s : GState) (uses : List Use) : List (Nat × Use) :=
  uses.flatMap (fun u => [(edge_point s u.obj 0, ⟨0, u.obj⟩), (edge_point s u.obj 1, ⟨1, u.obj⟩)])

/-- One iteration of `unscramble_loop`'s while loop, on the reversed
chain (head = back): take the trailing endpoint of the last use and
append every candidate whose curve differs from the one just consumed. -/
def unscrambleStep (s : GState) (incid : List (Nat × Use)) (racc : List Use) : List Use :=
  match racc with
  | [] => []
  | last :: _ =>
    let p := edge_point s last.obj (1 - last.dir)
    let cands := ((incid.filter (fun e => e.1 == p)).map Prod.snd).filter
      (fun u => u.obj ≠ last.obj)
    cands.reverse ++ racc

/-- The while loop (`while (new_uses.size() < loop->used.size())`) of
`unscramble_loop`, with fuel; exhausted fuel models the source's
non-termination on malformed input. -/
def unscrambleGo (s : GState) (incid : List (Nat × Use)) (n : Nat) :
    Nat → List Use → Option (List Use)
  | fuel, racc =>
    if racc.length < n then
      match fuel with
      | 0 => none
      | fuel + 1 => unscrambleGo s incid n fuel (unscrambleStep s incid racc)
    else some racc

/-- `unscramble_loop(loop)`: rebuild the use list into a connected chain
starting from use 0 (`loop->used[0]` of an empty loop is UB: `none`). -/
def unscramble_loop (s : GState) (loop : Nat) : Option GState :=
  let uses := (getObj s loop).used
  match uses.head? with
  | none => none
  | some u0 =>
    (unscrambleGo s (loopIncidence s uses) uses.length uses.length [u0]).map
      (fun racc => modifyObj s loop (fun o => { o with used := racc.reverse }))

/-- The leading endpoint of a curve use, respecting orientation (the
source's `edge_point(use.obj, use.dir)`). -/
def leadPt (s : GState) (u : Use) : Nat :=
  edge_point s u.obj u.dir

/-- The trailing endpoint of a curve use, respecting orientation (the
source's `edge_point(use.obj, 1 - use.dir)`). -/
def trailPt (s : GState) (u : Use) : Nat :=
  edge_point s u.obj (1 - u.dir)

/-- A valid simple closed cycle of curve uses: nonempty, orientations
are Forward/Reverse, each use's trailing endpoint is the next use's
leading endpoint (cyclically), the curves are pairwise distinct, and the
shared points are pairwise distinct. -/
def IsCycle (s : GState) (c : List Use) : Prop :=
  c ≠ [] ∧
  (∀ u ∈ c, u.dir = 0 ∨ u.dir = 1) ∧
  (c.map Use.obj).Nodup ∧
  (c.map (leadPt s)).Nodup ∧
  ∀ i : Fin c.length,
    trailPt s (c.get i) =
      leadPt s (c.get ⟨((i : Nat) + 1) % c.length, Nat.mod_lt _ i.pos⟩)

instance (s : GState) (c : List Use) : Decidable (IsCycle s c) := by
  unfold IsCycle
  infer_instance

/-- Result of the ELLIPSE case of `eval`: either the fatal quarter-ellipse
usage errors, or the inputs handed to the `c + cos·ca + sin·cb` formula
(the trigonometric evaluation itself belongs to the numeric
collaborator). -/
inductive EllipseEvalResult
  | value (center ca cb : Vec) (u : ℚ)
  | fatalMajor
  | fatalMinor
  deriving DecidableEq, Repr

/-- The ELLIPSE case of `eval(o, param)`.  The floating-point collaborator
predicates `are_parallel` / `are_perpendicular` are parameters.  Faithful
to the source: when the endpoint check fails, the endpoint pointers and
`u` are swapped, but `ca`, `cb`, `cm` are NOT recomputed before the
re-validation or the formula. -/
def eval_ellipse (par perp : Vec → Vec → Bool) (s : GState) (o : Nat) (u : ℚ) :
    EllipseEvalResult :=
  let a := edge_point s o 0
  let c := ellipse_center s o
  let m := ellipse_major_pt s o
  let b := edge_point s o 1
  let ca := (getObj s a).pos - (getObj s c).pos
  let cb := (getObj s b).pos - (getObj s c).pos
  let cm := (getObj s m).pos - (getObj s c).pos
  if !(par cb cm) then
    -- a and b are swapped here in the source; the swapped pointers are
    -- never read again, so only the parameter swap is observable.
    let u' := 1 - u
    if !(par cb cm) then EllipseEvalResult.fatalMajor
    else if !(perp ca cm) then EllipseEvalResult.fatalMinor
    else EllipseEvalResult.value (getObj s c).pos ca cb u'
  else
    EllipseEvalResult.value (getObj s c).pos ca cb u

/-- One emitted line of the script (`.geo`) export.  Statements carry
their subject id and payload; the fixed-format text around them is the
serialization collaborator's concern. -/
inductive Stmt
  | pointStmt (id : Nat) (pos : Vec) (size : ℚ)
  | arcStmt (id : Nat) (p0 c p1 : Nat)
  | ellipseStmt (id : Nat) (p0 c m p1 : Nat)
  | splineStmt (id : Nat) (p0 : Nat) (helpers : List Nat) (p1 : Nat)
  | simpleStmt (id : Nat) (t : ObjType) (args : List Int)
  | inStmt (childDim : Int) (child : Nat) (parentDim : Int) (parent : Nat)
  | physStmt (t : ObjType) (id : Nat)
  deriving DecidableEq, Repr

/-- `print_simple_object`: `<KindName>(id) = {child ids};` where a child
of a boundary aggregate used with Reverse is emitted negated, followed by
one `In` statement per embedded entity. -/
def print_simple_object (s : GState) (o : Nat) : List Stmt :=
  Stmt.simpleStmt o (getObj s o).type
    ((getObj s o).used.map (fun u =>
      if is_boundary (getObj s o).type && u.dir == 1 then -(Int.ofNat u.obj)
      else Int.ofNat u.obj)) ::
  (getObj s o).embedded.map (fun e =>
    Stmt.inStmt (type_dims (getObj s e).type) e (type_dims (getObj s o).type) o)

/-- `print_object`: dispatch on the kind; Groups print nothing; every
kind not handled specially (including Loop and Shell) prints via
`print_simple_object`. -/
def print_object (s : GState) (o : Nat) : List Stmt :=
  match (getObj s o).type with
  | POINT => [Stmt.pointStmt o (getObj s o).pos (getObj s o).size]
  | ARC => [Stmt.arcStmt o (edge_point s o 0) (arc_center s o) (edge_point s o 1)]
  | ELLIPSE =>
    [Stmt.ellipseStmt o (edge_point s o 0) (ellipse_center s o)
      (ellipse_major_pt s o) (edge_point s o 1)]
  | SPLINE => [Stmt.splineStmt o (edge_point s o 0) (getObj s o).helpers (edge_point s o 1)]
  | GROUP => []
  | _ => print_simple_object s o

/-- `print_object_physical`: `Physical <DimName>(id) = {id};` for
dimensioned entities only. -/
def print_object_physical (s : GState) (o : Nat) : List Stmt :=
  if is_entity (getObj s o).type then [Stmt.physStmt (getObj s o).type o] else []

/-- The first loop of `print_closure`: one `print_object` per member of
the full closure (helpers and embedded included). -/
def print_first_pass (s : GState) (obj : Nat) : List Stmt :=
  (get_closure s obj true true).2.flatMap (print_object (get_closure s obj true true).1)

/-- The second loop of `print_closure`: one `print_object_physical` per
member of the closure recomputed WITHOUT helpers (embedded included). -/
def print_second_pass (s : GState) (obj : Nat) : List Stmt :=
  (get_closure (get_closure s obj true true).1 obj false true).2.flatMap
    (print_object_physical (get_closure (get_closure s obj true true).1 obj false true).1)

/-- `print_closure`: both passes, in file order. -/
def print_closure (s : GState) (obj : Nat) : List Stmt :=
  print_first_pass s obj ++ print_second_pass s obj

/-- The subject of a definition statement (`In` relation lines and
Physical tags define no entity). -/
def stmtSubject : Stmt → Option Nat
  | .pointStmt i _ _ => some i
  | .arcStmt i _ _ _ => some i
  | .ellipseStmt i _ _ _ _ => some i
  | .splineStmt i _ _ _ => some i
  | .simpleStmt i _ _ => some i
  | .inStmt _ _ _ _ => none
  | .physStmt _ _ => none

/-- Scratch slots all unset: the state every public operation must
receive and hand back. -/
def allScratchUnset (s : GState) : Prop :=
  ∀ id, (getObj s id).scratch = -1

/-- `allScratchUnset` is checkable by scanning the heap (out-of-range
reads give the default record, whose scratch is already -1). -/
instance (s : GState) : Decidable (allScratchUnset s) :=
  decidable_of_iff (∀ o ∈ s.objs, o.scratch = -1) (by
    unfold allScratchUnset getObj
    constructor
    · intro h id
      rcases Nat.lt_or_ge id s.objs.length with hid | hid
      · rw [List.getD_eq_getElem s.objs default hid]
        exact h _ (List.getElem_mem hid)
      · rw [List.getD_eq_default s.objs default hid]
        rfl
    · intro h o ho
      obtain ⟨i, hi, he⟩ := List.mem_iff_getElem.mp ho
      have h2 := h i
      rw [List.getD_eq_getElem s.objs default hi, he] at h2
      exact h2)

/-- The empty heap. -/
def emptyS : GState := ⟨[]⟩

/-- Graph for claim C1: groups G0 (id 0), G1 (id 1, contains G0), G2
(id 2, contains G0 then G1), built through the public constructors.
G0 is reachable from the root G2 both directly and through G1. -/
def sC1 : GState :=
  let (s, g0) := new_group emptyS
  let (s, g1) := new_group s
  let s := add_to_group s g1 g0
  let (s, g2) := new_group s
  let s := add_to_group s g2 g0
  let s := add_to_group s g2 g1
  s

/-- Graph for claim C2: points P0 (id 0) and P1 (id 1), line L (id 2)
from P0 to P1, and a group (id 3) holding P0 and then L, so that P0 is
reachable from the root at two different depths. -/
def sC2 : GState :=
  let (s, p0) := new_point2 emptyS ⟨0, 0, 0⟩
  let (s, p1) := new_point2 s ⟨1, 0, 0⟩
  let (s, l) := new_line2 s p0 p1
  let (s, g) := new_group s
  let s := add_to_group s g p0
  let s := add_to_group s g l
  s

/-- Claim C3 end-to-end build: cube A at the origin, cube B stacked on
top of it, welded through A's top face (shell use 1, the sweep's end
face) and B's bottom face (shell use 0, the original square), then the
assembly boundary of the group of both volumes.  Returns (state,
boundary, cube A, cube B, welded small face). -/
def c3Build : Option (GState × Nat × Nat × Nat × Nat) := do
  let (s, cubeA) ← new_cube emptyS ⟨0, 0, 0⟩ ⟨1, 0, 0⟩ ⟨0, 1, 0⟩ ⟨0, 0, 1⟩
  let (s, cubeB) ← new_cube s ⟨0, 0, 1⟩ ⟨1, 0, 0⟩ ⟨0, 1, 0⟩ ⟨0, 0, 1⟩
  let bigFace := get_cube_face s cubeA 1
  let smallFace := get_cube_face s cubeB 0
  let s ← weld_volume_face_into s cubeA cubeB bigFace smallFace
  let (s, g) := new_group s
  let s := add_to_group s g cubeA
  let s := add_to_group s g cubeB
  let (s, boundary) ← collect_assembly_boundary s g
  some (s, boundary, cubeA, cubeB, smallFace)

/-- Store for claim C5's counterexample: a unit square face (its closure
contains a Loop). -/
def c5Build : Option (GState × Nat) :=
  new_square emptyS ⟨0, 0, 0⟩ ⟨1, 0, 0⟩ ⟨0, 1, 0⟩

/-- Store for claim C6's counterexample: an arc (id 3) over endpoints
P0 (id 0) and P1 (id 2) with center helper C (id 1). -/
def sC6 : GState :=
  let (s, p0) := new_point2 emptyS ⟨1, 0, 0⟩
  let (s, c) := new_point2 s ⟨0, 0, 0⟩
  let (s, p1) := new_point2 s ⟨0, 1, 0⟩
  (new_arc2 s p0 c p1).1

/-- Witness store for claim C7: a triangle loop (id 6) whose use list is
a scrambled permutation of the cycle L3 (P0→P1), L4 (P1→P2), L5 (P2→P0). -/
def sC7 : GState :=
  let (s, p0) := new_point2 emptyS ⟨0, 0, 0⟩
  let (s, p1) := new_point2 s ⟨1, 0, 0⟩
  let (s, p2) := new_point2 s ⟨0, 1, 0⟩
  let (s, l3) := new_line2 s p0 p1
  let (s, l4) := new_line2 s p1 p2
  let (s, l5) := new_line2 s p2 p0
  let (s, loop) := new_loop s
  let s := add_use s loop 0 l3
  let s := add_use s loop 0 l5
  let s := add_use s loop 0 l4
  s

/-- Witness store for claims C4: two faces (ids 4 and 6, both planes)
whose boundary loops (ids 3 and 5) share curve 2, grouped under id 7. -/
def sC4 : GState :=
  let (s, e0) := new_object emptyS LINE
  let (s, e1) := new_object s LINE
  let (s, esh) := new_object s LINE
  let (s, l1) := new_loop s
  let s := add_use s l1 0 e0
  let s := add_use s l1 0 esh
  let (s, f1) := new_plane2 s l1
  let (s, l2) := new_loop s
  let s := add_use s l2 0 e1
  let s := add_use s l2 1 esh
  let (s, f2) := new_plane2 s l2
  let (s, g) := new_group s
  let s := add_to_group s g f1
  let s := add_to_group s g f2
  s

/-- Witness store for claim C8's loop sweep: a two-curve loop (id 4,
a bigon of lines 2 and 3 over points 0 and 1) and an empty shell (id 5). -/
def sC8loop : GState :=
  let (s, p0) := new_point2 emptyS ⟨0, 0, 0⟩
  let (s, p1) := new_point2 s ⟨1, 0, 0⟩
  let (s, l2) := new_line2 s p0 p1
  let (s, l3) := new_line2 s p1 p0
  let (s, loop) := new_loop s
  let s := add_use s loop 0 l2
  let s := add_use s loop 0 l3
  (new_shell s).1

/-- Witness store for claim C8's point and edge sweeps: two points and a
line. -/
def sC8line : GState :=
  let (s, p0) := new_point2 emptyS ⟨0, 0, 0⟩
  let (s, p1) := new_point2 s ⟨1, 0, 0⟩
  (new_line2 s p0 p1).1

/-- Witness store for claim C9: an ellipse (id 4) whose first endpoint
A (id 0) lies on the major axis and whose second endpoint B (id 3) lies
on the minor axis — the swapped assignment would be a valid quarter
ellipse. -/
def sC9 : GState :=
  let (s, a) := new_point2 emptyS ⟨1, 0, 0⟩
  let (s, c) := new_point2 s ⟨0, 0, 0⟩
  let (s, m) := new_point2 s ⟨1, 0, 0⟩
  let (s, b) := new_point2 s ⟨0, 2, 0⟩
  (new_ellipse2 s a c m b).1

/-- Exact parallelism (zero cross product): the witness instantiation of
the numeric collaborator's `are_parallel`. -/
def exact_par (v w : Vec) : Bool :=
  (v.y * w.z - v.z * w.y == 0) && (v.z * w.x - v.x * w.z == 0) &&
    (v.x * w.y - v.y * w.x == 0)

/-- Exact orthogonality (zero dot product): the witness instantiation of
the numeric collaborator's `are_perpendicular`. -/
def exact_perp (v w : Vec) : Bool :=
  v.x * w.x + v.y * w.y + v.z * w.z == 0

/-- Witness store for claim C10: like `sC4` but each cell carries a
second boundary aggregate (a void loop, as `insert_into` would add),
holding uses that appear nowhere in the first aggregates. -/
def sC10 : GState :=
  let (s, e0) := new_object emptyS LINE
  let (s, e1) := new_object s LINE
  let (s, esh) := new_object s LINE
  let (s, evoid) := new_object s LINE
  let (s, l1) := new_loop s
  let s := add_use s l1 0 e0
  let s := add_use s l1 0 esh
  let (s, f1) := new_plane2 s l1
  let (s, lv1) := new_loop s
  let s := add_use s lv1 0 evoid
  let s := add_use s f1 1 lv1
  let (s, l2) := new_loop s
  let s := add_use s l2 0 e1
  let s := add_use s l2 1 esh
  let (s, f2) := new_plane2 s l2
  let (s, lv2) := new_loop s
  let s := add_use s lv2 1 evoid
  let s := add_use s f2 1 lv2
  let (s, g) := new_group s
  let s := add_to_group s g f1
  let s := add_to_group s g f2
  s

/-- The unit-square store of `c5Build` (the build succeeds; the fallback
is never taken). -/
def sSquare : GState := (c5Build.getD (default, 0)).1

/-- The id of the square face in `sSquare`. -/
def squareFace : Nat := (c5Build.getD (default, 0)).2

/-- `sSquare` plus a Group holding the square face. -/
def sFaceGroup : GState :=
  add_to_group (new_group sSquare).1 (new_group sSquare).2 squareFace

/-- The id of that Group. -/
def sFaceGroupId : Nat := (new_group sSquare).2

/-- A unit translation, the witness transform. -/
def trW : Transform := fun a => a + ⟨0, 0, 1⟩

/-- Scratch value of an id, the projection every workspace argument is
about. -/
def scr (s : GState) (i : Nat) : Int :=
  (getObj s i).scratch

/-- Everything about an object except its scratch slot. -/
def shape (o : Obj) : ObjType × List Use × List Nat × List Nat × Vec × ℚ :=
  (o.type, o.used, o.helpers, o.embedded, o.pos, o.size)

theorem length_modifyObj (s : GState) (i : Nat) (f : Obj → Obj) :
    (modifyObj s i f).objs.length = s.objs.length := by
  simp [modifyObj]

theorem getObj_modifyObj_self (s : GState) (i : Nat) (f : Obj → Obj)
    (h : i < s.objs.length) : getObj (modifyObj s i f) i = f (getObj s i) := by
  unfold getObj modifyObj
  simp only [List.getD, List.get?_eq_getElem?]
  rw [List.getElem?_eq_getElem (by simpa using h), List.getElem?_eq_getElem h]
  simp only [Option.getD_some, List.getElem_set_self]
  congr 1
  unfold getObj
  simp [List.getD, List.get?_eq_getElem?, List.getElem?_eq_getElem h]

theorem getObj_modifyObj_ne (s : GState) (i j : Nat) (f : Obj → Obj)
    (h : j ≠ i) : getObj (modifyObj s i f) j = getObj s j := by
  unfold getObj modifyObj
  simp only [List.getD, List.get?_eq_getElem?]
  rw [List.getElem?_set_ne (fun he => h he.symm)]

theorem getObj_modifyObj_oob (s : GState) (i : Nat) (f : Obj → Obj)
    (h : s.objs.length ≤ i) : modifyObj s i f = s := by
  unfold modifyObj
  rw [List.set_eq_of_length_le h]

theorem getObj_new_object_old (s : GState) (t : ObjType) (j : Nat)
    (h : j < s.objs.length) : getObj (new_object s t).1 j = getObj s j := by
  unfold getObj new_object
  simp only [List.getD, List.get?_eq_getElem?]
  rw [List.getElem?_append]
  simp [h]

theorem getObj_new_object_self (s : GState) (t : ObjType) :
    getObj (new_object s t).1 s.objs.length = mkObj t := by
  unfold getObj new_object
  simp

theorem getObj_new_object_oob (s : GState) (t : ObjType) (j : Nat)
    (h : s.objs.length < j) : getObj (new_object s t).1 j = default := by
  unfold getObj new_object
  simp only [List.getD, List.get?_eq_getElem?]
  rw [List.getElem?_eq_none (by simp; omega)]
  rfl

theorem length_new_object (s : GState) (t : ObjType) :
    (new_object s t).1.objs.length = s.objs.length + 1 := by
  simp [new_object]

/-- scratch is the default -1 out of range. -/
theorem scr_oob (s : GState) (j : Nat) (h : s.objs.length ≤ j) : scr s j = -1 := by
  unfold scr getObj
  rw [List.getD_eq_default _ _ h]
  rfl

/-- Creations do not change any scratch value (the fresh object is born
unset, matching the default record read at its id beforehand). -/
theorem scr_new_object (s : GState) (t : ObjType) (j : Nat) :
    scr (new_object s t).1 j = scr s j := by
  rcases Nat.lt_trichotomy j s.objs.length with h | h | h
  · unfold scr
    rw [getObj_new_object_old s t j h]
  · subst h
    have h1 : scr (new_object s t).1 s.objs.length = -1 := by
      unfold scr
      rw [getObj_new_object_self]
      rfl
    rw [h1, scr_oob s _ (Nat.le_refl _)]
  · have h1 : scr (new_object s t).1 j = -1 := by
      unfold scr
      rw [getObj_new_object_oob s t j h]
      rfl
    rw [h1, scr_oob s j (Nat.le_of_lt h)]

/-- A modification that keeps the scratch field keeps every scratch
value. -/
theorem scr_modifyObj_keep (s : GState) (i : Nat) (f : Obj → Obj)
    (hf : ∀ o, (f o).scratch = o.scratch) (j : Nat) :
    scr (modifyObj s i f) j = scr s j := by
  rcases Nat.lt_or_ge i s.objs.length with h | h
  · rcases eq_or_ne j i with rfl | hn
    · unfold scr
      rw [getObj_modifyObj_self s j f h, hf]
    · unfold scr
      rw [getObj_modifyObj_ne s i j f hn]
  · rw [getObj_modifyObj_oob s i f h]

theorem scr_add_use (s : GState) (a d o j : Nat) :
    scr (add_use s a d o) j = scr s j := by
  unfold add_use
  apply scr_modifyObj_keep
  intro o2
  rfl

theorem scr_add_helper (s : GState) (a h j : Nat) :
    scr (add_helper s a h) j = scr s j := by
  unfold add_helper
  apply scr_modifyObj_keep
  intro o2
  rfl

theorem scr_embed (s : GState) (a e j : Nat) :
    scr (embed s a e) j = scr s j := by
  unfold embed
  apply scr_modifyObj_keep
  intro o2
  rfl

theorem scr_setPos (s : GState) (i : Nat) (v : Vec) (j : Nat) :
    scr (setPos s i v) j = scr s j := by
  unfold setPos
  apply scr_modifyObj_keep
  intro o2
  rfl

theorem scr_setSize (s : GState) (i : Nat) (v : ℚ) (j : Nat) :
    scr (setSize s i v) j = scr s j := by
  unfold setSize
  apply scr_modifyObj_keep
  intro o2
  rfl

/-- setScratch writes `v` at a live id, nothing elsewhere. -/
theorem scr_setScratch (s : GState) (i : Nat) (v : Int) (j : Nat) :
    scr (setScratch s i v) j =
      if j = i ∧ i < s.objs.length then v else scr s j := by
  rcases Nat.lt_or_ge i s.objs.length with h | h
  · rcases eq_or_ne j i with rfl | hn
    · unfold scr setScratch
      rw [getObj_modifyObj_self s j _ h]
      simp [h]
    · unfold scr setScratch
      rw [getObj_modifyObj_ne s i j _ hn]
      simp [hn]
  · unfold setScratch
    rw [getObj_modifyObj_oob s i _ h]
    simp [Nat.not_lt.mpr h]

/-- Unsetting is unconditional: at a dead id the read is the default -1
anyway. -/
theorem scr_setScratch_neg1 (s : GState) (i j : Nat) :
    scr (setScratch s i (-1)) j = if j = i then -1 else scr s j := by
  rw [scr_setScratch]
  rcases eq_or_ne j i with rfl | hn
  · rcases Nat.lt_or_ge j s.objs.length with h | h
    · simp [h]
    · simp [Nat.not_lt.mpr h, scr_oob s j h]
  · simp [hn]

theorem scr_incScratch (s : GState) (i : Nat) (j : Nat) (hi : i < s.objs.length) :
    scr (incScratch s i) j = if j = i then scr s j + 1 else scr s j := by
  rcases eq_or_ne j i with rfl | hn
  · unfold scr incScratch
    rw [getObj_modifyObj_self s j _ hi]
    simp [scr]
  · unfold scr incScratch
    rw [getObj_modifyObj_ne s i j _ hn]
    simp [hn]

/-- `resetScratch` unsets exactly the listed ids. -/
theorem scr_resetScratch (s : GState) (l : List Nat) (j : Nat) :
    scr (resetScratch s l) j = if j ∈ l then -1 else scr s j := by
  induction l generalizing s with
  | nil => simp [resetScratch]
  | cons a l ih =>
    show scr (resetScratch (setScratch s a (-1)) l) j = _
    rw [ih, scr_setScratch_neg1]
    by_cases h1 : j ∈ l <;> by_cases h2 : j = a <;> simp [h1, h2]

theorem length_resetScratch (s : GState) (l : List Nat) :
    (resetScratch s l).objs.length = s.objs.length := by
  induction l generalizing s with
  | nil => rfl
  | cons a l ih =>
    show (resetScratch (setScratch s a (-1)) l).objs.length = _
    rw [ih]
    exact length_modifyObj _ _ _

/-- Shape (everything but scratch) is untouched by scratch writes. -/
theorem shape_modifyObj_scrOnly (s : GState) (i : Nat) (f : Obj → Obj)
    (hf : ∀ o, shape (f o) = shape o) (j : Nat) :
    shape (getObj (modifyObj s i f) j) = shape (getObj s j) := by
  rcases Nat.lt_or_ge i s.objs.length with h | h
  · rcases eq_or_ne j i with rfl | hn
    · rw [getObj_modifyObj_self s j f h, hf]
    · rw [getObj_modifyObj_ne s i j f hn]
  · rw [getObj_modifyObj_oob s i f h]

theorem shape_modifyObj_ne (s : GState) (i : Nat) (f : Obj → Obj) (j : Nat)
    (h : j ≠ i) : shape (getObj (modifyObj s i f) j) = shape (getObj s j) := by
  rcases Nat.lt_or_ge i s.objs.length with hi | hi
  · rw [getObj_modifyObj_ne s i j f h]
  · rw [getObj_modifyObj_oob s i f hi]

theorem shape_setScratch (s : GState) (i : Nat) (v : Int) (j : Nat) :
    shape (getObj (setScratch s i v) j) = shape (getObj s j) := by
  unfold setScratch
  apply shape_modifyObj_scrOnly
  intro o2
  rfl

theorem shape_incScratch (s : GState) (i : Nat) (j : Nat) :
    shape (getObj (incScratch s i) j) = shape (getObj s j) := by
  unfold incScratch
  apply shape_modifyObj_scrOnly
  intro o2
  rfl

theorem shape_resetScratch (s : GState) (l : List Nat) (j : Nat) :
    shape (getObj (resetScratch s l) j) = shape (getObj s j) := by
  induction l generalizing s with
  | nil => rfl
  | cons a l ih =>
    show shape (getObj (resetScratch (setScratch s a (-1)) l) j) = _
    rw [ih, shape_setScratch]

/-- The definition statements emitted by the first-pass loop body are one
per non-Group object, in order (`In` lines define no entity). -/
theorem filterMap_stmtSubject_flatMap_print_object (s : GState) (l : List Nat) :
    (l.flatMap (print_object s)).filterMap stmtSubject =
      l.filter (fun o => !((getObj s o).type == GROUP)) := by
  induction l with
  | nil => rfl
  | cons a l ih =>
    simp only [List.flatMap_cons, List.filterMap_append, ih, List.filter_cons]
    cases h : (getObj s a).type <;>
      simp [print_object, h, print_simple_object, stmtSubject, List.filterMap_cons,
        List.filterMap_map, Function.comp]

/-- The physical-pass loop body emits exactly one Physical tag per
dimensioned entity of its input list, in order, and none for the rest. -/
theorem flatMap_print_object_physical (s : GState) (l : List Nat) :
    l.flatMap (print_object_physical s) =
      (l.filter (fun o => is_entity (getObj s o).type)).map
        (fun o => Stmt.physStmt (getObj s o).type o) := by
  induction l with
  | nil => rfl
  | cons a l ih =>
    simp only [List.flatMap_cons, ih, List.filter_cons]
    by_cases h : is_entity (getObj s a).type <;> simp [print_object_physical, h]

theorem length_setScratch (s : GState) (i : Nat) (v : Int) :
    (setScratch s i v).objs.length = s.objs.length :=
  length_modifyObj s i _

theorem length_incScratch (s : GState) (i : Nat) :
    (incScratch s i).objs.length = s.objs.length :=
  length_modifyObj s i _

/-- Generic: a fold of per-use state updates that preserve heap length
preserves heap length. -/
theorem length_foldl_uses (f : GState → Use → GState)
    (hf : ∀ s' u, (f s' u).objs.length = s'.objs.length) (us : List Use) (s : GState) :
    (us.foldl f s).objs.length = s.objs.length := by
  induction us generalizing s with
  | nil => rfl
  | cons u us ih => rw [List.foldl_cons, ih, hf]

/-- Generic: a fold of per-use state updates that preserve every object's
shape preserves every object's shape. -/
theorem shape_foldl_uses (f : GState → Use → GState)
    (hf : ∀ s' u j', shape (getObj (f s' u) j') = shape (getObj s' j'))
    (us : List Use) (s : GState) (j : Nat) :
    shape (getObj (us.foldl f s) j) = shape (getObj s j) := by
  induction us generalizing s with
  | nil => rfl
  | cons u us ih => rw [List.foldl_cons, ih, hf]

/-- The `scratch = 0` pass: every live gathered target is zeroed, nothing
else moves. -/
theorem scr_fold_set0 (us : List Use) (s : GState) (j : Nat) :
    scr (us.foldl (fun s' u => setScratch s' u.obj 0) s) j =
      if j ∈ us.map Use.obj ∧ j < s.objs.length then 0 else scr s j := by
  induction us generalizing s with
  | nil => simp
  | cons u us ih =>
    rw [List.foldl_cons, ih, length_setScratch, scr_setScratch, List.map_cons]
    simp only [List.mem_cons]
    rcases eq_or_ne j u.obj with h2 | h2
    · rw [← h2]
      by_cases h3 : j < s.objs.length <;> by_cases h1 : j ∈ us.map Use.obj <;>
        simp [h1, h3]
    · simp [h2]

/-- The `++scratch` pass adds the number of gathered occurrences. -/
theorem scr_fold_inc (us : List Use) (s : GState) (j : Nat)
    (hv : ∀ u ∈ us, u.obj < s.objs.length) :
    scr (us.foldl (fun s' u => incScratch s' u.obj) s) j =
      scr s j + ((us.map Use.obj).count j) := by
  induction us generalizing s with
  | nil => simp
  | cons u us ih =>
    rw [List.foldl_cons,
      ih _ (fun u' hu' => by
        rw [length_incScratch]
        exact hv u' (List.mem_cons_of_mem _ hu')),
      scr_incScratch s u.obj j (hv u (List.mem_cons_self _ _))]
    rw [List.map_cons, List.count_cons]
    rcases eq_or_ne j u.obj with h2 | h2 <;> simp [h2] <;> omega

/-- The final `scratch = -1` pass unsets every gathered target, touching
nothing else. -/
theorem scr_fold_reset (us : List Use) (s : GState) (j : Nat) :
    scr (us.foldl (fun s' u => setScratch s' u.obj (-1)) s) j =
      if j ∈ us.map Use.obj then -1 else scr s j := by
  induction us generalizing s with
  | nil => simp
  | cons u us ih =>
    rw [List.foldl_cons, ih, scr_setScratch_neg1, List.map_cons]
    simp only [List.mem_cons]
    rcases eq_or_ne j u.obj with h2 | h2
    · by_cases h1 : j ∈ us.map Use.obj <;> simp [h1, h2]
    · simp [h2]

/-- The gathering loop, below the first cell: one kind for all cells, and
the output is the concatenation of every cell's FIRST boundary
aggregate's uses, in order. -/
theorem gatherCellUses_eq (s : GState) (t : ObjType) (cus : List Use)
    (h1 : ∀ cu ∈ cus, (getObj s cu.obj).type = t)
    (h2 : ∀ cu ∈ cus, (getObj s cu.obj).used ≠ []) :
    gatherCellUses s cus (some t) =
      some (some t, cus.flatMap (fun cu => (getObj s (cell_boundary s cu.obj)).used)) := by
  induction cus with
  | nil => rfl
  | cons cu rest ih =>
    have ht := h1 cu (List.mem_cons_self _ _)
    have hne := h2 cu (List.mem_cons_self _ _)
    obtain ⟨bu, tl, he⟩ : ∃ bu tl, (getObj s cu.obj).used = bu :: tl := by
      cases hu : (getObj s cu.obj).used with
      | nil => exact absurd hu hne
      | cons a l => exact ⟨a, l, rfl⟩
    have ih2 := ih (fun c hc => h1 c (List.mem_cons_of_mem _ hc))
      (fun c hc => h2 c (List.mem_cons_of_mem _ hc))
    unfold gatherCellUses
    rw [if_pos ht, he]
    simp only [List.head?_cons, ih2, Option.bind_eq_bind, Option.some_bind]
    simp [cell_boundary, he]

/-- The gathering loop from the start: the first cell fixes the kind. -/
theorem gatherCellUses_none_eq (s : GState) (t : ObjType) (cus : List Use)
    (hne : cus ≠ [])
    (h1 : ∀ cu ∈ cus, (getObj s cu.obj).type = t)
    (h2 : ∀ cu ∈ cus, (getObj s cu.obj).used ≠ []) :
    gatherCellUses s cus none =
      some (some t, collectUsesOf s cus) := by
  cases cus with
  | nil => exact absurd rfl hne
  | cons cu rest =>
    have ht := h1 cu (List.mem_cons_self _ _)
    have hb := h2 cu (List.mem_cons_self _ _)
    obtain ⟨bu, tl, he⟩ : ∃ bu tl, (getObj s cu.obj).used = bu :: tl := by
      cases hu : (getObj s cu.obj).used with
      | nil => exact absurd hu hb
      | cons a l => exact ⟨a, l, rfl⟩
    have hrest := gatherCellUses_eq s t rest
      (fun c hc => h1 c (List.mem_cons_of_mem _ hc))
      (fun c hc => h2 c (List.mem_cons_of_mem _ hc))
    unfold gatherCellUses
    rw [if_pos rfl, he]
    simp only [List.head?_cons, ht, hrest, Option.bind_eq_bind, Option.some_bind]
    simp [collectUsesOf, cell_boundary, he]

/-- Generic transport of a reflexive-transitive property along a
successful `foldlM` over `Option`. -/
theorem foldlM_option_preserve {α β : Type} (P : β → β → Prop)
    (hrefl : ∀ b, P b b) (htrans : ∀ a b c, P a b → P b c → P a c)
    (f : β → α → Option β) (l : List α)
    (hf : ∀ b a b', a ∈ l → f b a = some b' → P b b') :
    ∀ b b', l.foldlM f b = some b' → P b b' := by
  induction l with
  | nil =>
    intro b b' h
    simp only [List.foldlM_nil, Option.pure_def, Option.some.injEq] at h
    rw [← h]
    exact hrefl b
  | cons a l ih =>
    intro b b' h
    rw [List.foldlM_cons] at h
    cases hfa : f b a with
    | none =>
      rw [hfa] at h
      simp at h
    | some b1 =>
      rw [hfa] at h
      simp only [Option.bind_eq_bind, Option.some_bind] at h
      exact htrans _ _ _ (hf b a b1 (List.mem_cons_self _ _) hfa)
        (ih (fun b2 a2 b3 ha2 => hf b2 a2 b3 (List.mem_cons_of_mem _ ha2)) b1 b' h)

theorem scr_incScratch_ne (s : GState) (i j : Nat) (h : j ≠ i) :
    scr (incScratch s i) j = scr s j := by
  unfold incScratch
  rcases Nat.lt_or_ge i s.objs.length with hi | hi
  · unfold scr
    rw [getObj_modifyObj_ne s i j _ h]
  · rw [getObj_modifyObj_oob s i _ hi]

/-- A fold writing scratch only at ids other than `j` leaves `j` alone. -/
theorem scr_foldl_setScratch_outside {α : Type} (idxs : List α) (g : α → Nat)
    (v : α → Int) (s : GState) (j : Nat) (hj : ∀ i ∈ idxs, g i ≠ j) :
    scr (idxs.foldl (fun s' i => setScratch s' (g i) (v i)) s) j = scr s j := by
  induction idxs generalizing s with
  | nil => rfl
  | cons a l ih =>
    rw [List.foldl_cons, ih _ (fun i hi => hj i (List.mem_cons_of_mem _ hi)), scr_setScratch]
    have hne : ¬(j = g a ∧ g a < s.objs.length) := by
      intro hand
      exact hj a (List.mem_cons_self _ _) hand.1.symm
    rw [if_neg hne]

/-- A BFS push marks only ids it appends to the queue: outside the
resulting queue, scratch is unchanged, and the queue only grows. -/
theorem pushKid_spec (st : GState × List Nat) (c : Nat) :
    (∃ l, (pushKid st c).2 = st.2 ++ l) ∧
    (∀ j, j ∉ (pushKid st c).2 → scr (pushKid st c).1 j = scr st.1 j) := by
  unfold pushKid
  by_cases h : (getObj st.1 c).scratch == -1
  · simp only [h, if_true]
    refine ⟨⟨[c], rfl⟩, ?_⟩
    intro j hj
    rw [scr_setScratch]
    have : j ≠ c := by
      intro he
      exact hj (List.mem_append.mpr (Or.inr (he ▸ List.mem_singleton_self c)))
    simp [this]
  · simp only [h, if_false]
    exact ⟨⟨[], by simp⟩, fun j _ => rfl⟩

theorem foldl_pushKid_spec (kids : List Nat) (st : GState × List Nat) :
    (∃ l, (kids.foldl pushKid st).2 = st.2 ++ l) ∧
    (∀ j, j ∉ (kids.foldl pushKid st).2 → scr (kids.foldl pushKid st).1 j = scr st.1 j) := by
  induction kids generalizing st with
  | nil => exact ⟨⟨[], by simp⟩, fun j _ => rfl⟩
  | cons a l ih =>
    rw [List.foldl_cons]
    obtain ⟨⟨l1, hl1⟩, h1⟩ := pushKid_spec st a
    obtain ⟨⟨l2, hl2⟩, h2⟩ := ih (pushKid st a)
    refine ⟨⟨l1 ++ l2, by rw [hl2, hl1, List.append_assoc]⟩, ?_⟩
    intro j hj
    rw [h2 j hj, h1 j]
    intro hmem
    apply hj
    rw [hl2]
    exact List.mem_append.mpr (Or.inl hmem)

theorem bfsVisit_spec (inclH inclE : Bool) (st : GState × List Nat) (cur : Nat) :
    (∃ l, (bfsVisit inclH inclE st cur).2 = st.2 ++ l) ∧
    (∀ j, j ∉ (bfsVisit inclH inclE st cur).2 →
      scr (bfsVisit inclH inclE st cur).1 j = scr st.1 j) := by
  unfold bfsVisit
  simp only []
  obtain ⟨⟨l1, hl1⟩, h1⟩ := foldl_pushKid_spec ((getObj st.1 cur).used.map Use.obj) st
  set st1 := ((getObj st.1 cur).used.map Use.obj).foldl pushKid st with hst1
  have step2 : ∃ st2, (if inclH then (getObj st1.1 cur).helpers.foldl pushKid st1 else st1) = st2 ∧
      (∃ l, st2.2 = st1.2 ++ l) ∧
      (∀ j, j ∉ st2.2 → scr st2.1 j = scr st1.1 j) := by
    by_cases hH : inclH
    · obtain ⟨he, h2⟩ := foldl_pushKid_spec (getObj st1.1 cur).helpers st1
      exact ⟨_, by rw [if_pos hH], he, h2⟩
    · exact ⟨st1, by rw [if_neg hH], ⟨[], by simp⟩, fun j _ => rfl⟩
  obtain ⟨st2, hst2, ⟨l2, hl2⟩, h2⟩ := step2
  rw [hst2]
  have step3 : ∃ st3, (if inclE then (getObj st2.1 cur).embedded.foldl pushKid st2 else st2) = st3 ∧
      (∃ l, st3.2 = st2.2 ++ l) ∧
      (∀ j, j ∉ st3.2 → scr st3.1 j = scr st2.1 j) := by
    by_cases hE : inclE
    · obtain ⟨he, h3⟩ := foldl_pushKid_spec (getObj st2.1 cur).embedded st2
      exact ⟨_, by rw [if_pos hE], he, h3⟩
    · exact ⟨st2, by rw [if_neg hE], ⟨[], by simp⟩, fun j _ => rfl⟩
  obtain ⟨st3, hst3, ⟨l3, hl3⟩, h3⟩ := step3
  rw [hst3]
  constructor
  · exact ⟨l1 ++ (l2 ++ l3), by rw [hl3, hl2, hl1]; simp [List.append_assoc]⟩
  · intro j hj
    have hj2 : j ∉ st2.2 := fun hmem => hj (hl3 ▸ List.mem_append.mpr (Or.inl hmem))
    have hj1 : j ∉ st1.2 := fun hmem => hj2 (hl2 ▸ List.mem_append.mpr (Or.inl hmem))
    rw [h3 j hj, h2 j hj2, h1 j hj1]

/-- Through the whole BFS loop: the queue only grows, and any id outside
the final queue keeps its initial scratch value. -/
theorem bfsLoop_spec (inclH inclE : Bool) (fuel : Nat) :
    ∀ (st : GState × List Nat) (first : Nat),
    (∃ l, (bfsLoop inclH inclE fuel st first).2 = st.2 ++ l) ∧
    (∀ j, j ∉ (bfsLoop inclH inclE fuel st first).2 →
      scr (bfsLoop inclH inclE fuel st first).1 j = scr st.1 j) := by
  induction fuel with
  | zero => exact fun st first => ⟨⟨[], by simp [bfsLoop]⟩, fun j _ => by rw [bfsLoop]⟩
  | succ fuel ih =>
    intro st first
    rw [bfsLoop]
    by_cases h : first < st.2.length
    · rw [dif_pos h]
      obtain ⟨⟨lv, hlv⟩, hv⟩ := bfsVisit_spec inclH inclE st (st.2.get ⟨first, h⟩)
      obtain ⟨⟨lr, hlr⟩, hr⟩ := ih (bfsVisit inclH inclE st (st.2.get ⟨first, h⟩)) (first + 1)
      refine ⟨⟨lv ++ lr, by rw [hlr, hlv, List.append_assoc]⟩, ?_⟩
      intro j hj
      have hjv : j ∉ (bfsVisit inclH inclE st (st.2.get ⟨first, h⟩)).2 := by
        intro hmem
        exact hj (hlr ▸ List.mem_append.mpr (Or.inl hmem))
      rw [hr j hj, hv j hjv]
    · rw [dif_neg h]
      exact ⟨⟨[], by simp⟩, fun j _ => rfl⟩

/-- C8 piece: `get_closure` hands scratch back fully unset. -/
theorem get_closure_allUnset (s : GState) (root : Nat) (hh ee : Bool)
    (hscr : allScratchUnset s) : allScratchUnset (get_closure s root hh ee).1 := by
  intro j
  show scr (get_closure s root hh ee).1 j = -1
  unfold get_closure
  simp only []
  rw [scr_resetScratch]
  set st := bfsLoop hh ee (s.objs.length + 1) (s, [root]) 0 with hst
  by_cases hm : j ∈ st.2
  · simp [hm]
  · obtain ⟨_, hout⟩ := bfsLoop_spec hh ee (s.objs.length + 1) (s, [root]) 0
    rw [if_neg hm, hout j hm]
    exact hscr j

theorem scr_new_point3 (s : GState) (v : Vec) (sz : ℚ) (j : Nat) :
    scr (new_point3 s v sz).1 j = scr s j := by
  simp [new_point3, new_point, scr_setSize, scr_setPos, scr_new_object]

theorem scr_new_line2 (s : GState) (a b j : Nat) :
    scr (new_line2 s a b).1 j = scr s j := by
  simp [new_line2, new_line, scr_add_use, scr_new_object]

theorem scr_new_arc2 (s : GState) (a c b j : Nat) :
    scr (new_arc2 s a c b).1 j = scr s j := by
  simp [new_arc2, scr_add_use, scr_add_helper, scr_new_object]

theorem scr_new_ellipse2 (s : GState) (a c m b j : Nat) :
    scr (new_ellipse2 s a c m b).1 j = scr s j := by
  simp [new_ellipse2, scr_add_use, scr_add_helper, scr_new_object]

theorem scr_new_plane2 (s : GState) (lp j : Nat) :
    scr (new_plane2 s lp).1 j = scr s j := by
  simp [new_plane2, new_plane, scr_add_use, scr_new_object]

theorem scr_new_ruled2 (s : GState) (lp j : Nat) :
    scr (new_ruled2 s lp).1 j = scr s j := by
  simp [new_ruled2, new_ruled, scr_add_use, scr_new_object]

theorem scr_new_volume2 (s : GState) (sh j : Nat) :
    scr (new_volume2 s sh).1 j = scr s j := by
  simp [new_volume2, scr_add_use, scr_new_object]

theorem scr_extrude_point2 (s : GState) (p : Nat) (tr : Transform) (j : Nat) :
    scr (extrude_point2 s p tr).1 j = scr s j := by
  simp [extrude_point2, scr_new_line2, scr_new_point3]

/-- `extrude_points` writes scratch only at the listed points. -/
theorem scr_extrude_points_not_mem (s : GState) (ps : List Nat) (tr : Transform)
    (j : Nat) (hj : j ∉ ps) : scr (extrude_points s ps tr).1 j = scr s j := by
  unfold extrude_points
  suffices hgen : ∀ st : GState × List Extruded,
      scr ((ps.foldl (fun st p =>
        let (s', e) := extrude_point2 st.1 p tr
        (setScratch s' p (Int.ofNat st.2.length), st.2 ++ [e])) st)).1 j = scr st.1 j by
    exact hgen (s, [])
  induction ps with
  | nil => intro st; rfl
  | cons a l ih =>
    have hja : j ≠ a := fun he => hj (he ▸ List.mem_cons_self a l)
    have hjl : j ∉ l := fun hm => hj (List.mem_cons_of_mem _ hm)
    intro st
    rw [List.foldl_cons, ih hjl]
    show scr (setScratch (extrude_point2 st.1 a tr).1 a (Int.ofNat st.2.length)) j = _
    rw [scr_setScratch]
    simp only [hja, false_and, if_false]
    exact scr_extrude_point2 st.1 a tr j

/-- The transformed-helper construction of the SPLINE branch of
`extrude_edge3` writes no scratch. -/
theorem scr_spline_points_fold (hs : List Nat) (tr : Transform) (j : Nat) :
    ∀ st : GState × List Nat,
    scr ((hs.foldl (fun st h =>
      let (s', eh) := new_point3 st.1 (tr (getObj st.1 h).pos) (getObj st.1 h).size
      (s', st.2 ++ [eh])) st)).1 j = scr st.1 j := by
  induction hs with
  | nil => intro st; rfl
  | cons a l ih =>
    intro st
    rw [List.foldl_cons, ih]
    exact scr_new_point3 st.1 _ _ j

theorem scr_foldl_add_helper (hs : List Nat) (oco : Nat) (j : Nat) :
    ∀ s : GState, scr (hs.foldl (fun s' h => add_helper s' oco h) s) j = scr s j := by
  induction hs with
  | nil => intro s; rfl
  | cons a l ih =>
    intro s
    rw [List.foldl_cons, ih, scr_add_helper]

/-- `extrude_edge3` (any curve kind) writes no scratch. -/
theorem scr_extrude_edge3 (s : GState) (e : Nat) (tr : Transform) (l r : Extruded)
    (s' : GState) (x : Extruded) (h : extrude_edge3 s e tr l r = some (s', x)) (j : Nat) :
    scr s' j = scr s j := by
  unfold extrude_edge3 at h
  split at h
  rename_i x1 s1 p1 heq1
  have hs1 : s1 = (new_loop s).1 := by rw [heq1]
  have hp1 : p1 = (new_loop s).2 := by rw [heq1]
  subst hs1
  subst hp1
  simp only [] at h
  split at h
  · simp only [Option.some.injEq, Prod.mk.injEq] at h
    rw [← h.1]
    simp [new_loop, scr_new_plane2, scr_add_use, scr_new_line2, scr_new_object]
  · simp only [Option.some.injEq, Prod.mk.injEq] at h
    rw [← h.1]
    simp [new_loop, scr_new_ruled2, scr_add_use, scr_new_arc2, scr_new_point3, scr_new_object]
  · simp only [Option.some.injEq, Prod.mk.injEq] at h
    rw [← h.1]
    simp [new_loop, scr_new_ruled2, scr_add_use, scr_new_ellipse2, scr_new_point3,
      scr_new_object]
  · simp only [Option.some.injEq, Prod.mk.injEq] at h
    rw [← h.1]
    simp only [scr_new_ruled2, scr_add_use]
    rw [scr_foldl_add_helper]
    simp only [scr_add_use, scr_new_object]
    rw [scr_spline_points_fold]
    simp [new_loop, scr_add_use, scr_new_object]
  · exact absurd h (by simp)

/-- `extrude_edges` writes scratch only at the listed curves. -/
theorem scr_extrude_edges_not_mem (s : GState) (edges : List Nat) (tr : Transform)
    (pexts : List Extruded) (s' : GState) (exts : List Extruded)
    (h : extrude_edges s edges tr pexts = some (s', exts)) (j : Nat) (hj : j ∉ edges) :
    scr s' j = scr s j := by
  unfold extrude_edges at h
  have hmain := foldlM_option_preserve
    (fun b b' : GState × List Extruded => scr b'.1 j = scr b.1 j)
    (fun b => rfl) (fun a b c h1 h2 => h2.trans h1) _ edges ?hf (s, []) (s', exts) h
  exact hmain
  case hf =>
    intro b a b' ha hstep
    have hja : j ≠ a := fun he => hj (he ▸ ha)
    simp only [Option.bind_eq_bind, Option.bind_eq_some] at hstep
    obtain ⟨left, _, hstep⟩ := hstep
    obtain ⟨right, _, hstep⟩ := hstep
    obtain ⟨pr, hpr, hstep⟩ := hstep
    obtain ⟨ps, pe⟩ := pr
    simp only [Option.some.injEq] at hstep
    rw [← hstep]
    show scr (setScratch ps a (Int.ofNat b.2.length)) j = _
    rw [scr_setScratch]
    simp only [hja, false_and, if_false]
    exact scr_extrude_edge3 b.1 a tr left right ps pe hpr j

/-- `extrude_loop4` writes no scratch. -/
theorem scr_extrude_loop4 (s : GState) (start shell : Nat) (sd : Nat)
    (eexts : List Extruded) (s' : GState) (x : Extruded)
    (h : extrude_loop4 s start shell sd eexts = some (s', x)) (j : Nat) :
    scr s' j = scr s j := by
  unfold extrude_loop4 at h
  simp only [Option.bind_eq_bind, Option.bind_eq_some] at h
  obtain ⟨s2, h2, h⟩ := h
  obtain ⟨s3, h3, h⟩ := h
  simp only [Option.some.injEq, Prod.mk.injEq] at h
  obtain ⟨h1, _⟩ := h
  rw [← h1]
  have p2 := foldlM_option_preserve (fun b b' : GState => scr b' j = scr b j)
    (fun b => rfl) (fun a b c hx hy => hy.trans hx) _ _ ?hf2 _ _ h2
  have p3 := foldlM_option_preserve (fun b b' : GState => scr b' j = scr b j)
    (fun b => rfl) (fun a b c hx hy => hy.trans hx) _ _ ?hf3 _ _ h3
  · rw [p3, p2]
    exact scr_new_object s LOOP j
  case hf2 =>
    intro b a b' _ hstep
    simp only [Option.bind_eq_bind, Option.bind_eq_some] at hstep
    obtain ⟨e, _, hstep⟩ := hstep
    simp only [Option.some.injEq] at hstep
    rw [← hstep, scr_add_use]
  case hf3 =>
    intro b a b' _ hstep
    simp only [Option.bind_eq_bind, Option.bind_eq_some] at hstep
    obtain ⟨e, _, hstep⟩ := hstep
    simp only [Option.some.injEq] at hstep
    rw [← hstep, scr_add_use]

/-- One step of `extrude_face3`'s per-loop fold writes no scratch. -/
theorem scr_face3_fold_step (eexts : List Extruded) (shell end_ : Nat) (j : Nat) :
    ∀ (b : GState) (a : Use) (b' : GState),
      ((extrude_loop4 b a.obj shell a.dir eexts).bind fun pr =>
        some (add_use pr.1 end_ a.dir pr.2.tip)) = some b' →
      scr b' j = scr b j := by
  intro b a b' hstep
  rw [Option.bind_eq_some] at hstep
  obtain ⟨pr, hpr, hstep⟩ := hstep
  simp only [Option.some.injEq] at hstep
  rw [← hstep, scr_add_use]
  exact scr_extrude_loop4 b a.obj shell a.dir eexts pr.1 pr.2 (by rw [hpr]) j

/-- `extrude_face3` writes no scratch. -/
theorem scr_extrude_face3 (s : GState) (face : Nat) (eexts : List Extruded)
    (s' : GState) (x : Extruded) (h : extrude_face3 s face eexts = some (s', x)) (j : Nat) :
    scr s' j = scr s j := by
  unfold extrude_face3 at h
  split at h
  · exact absurd h (by simp)
  · split at h
    · simp only [Option.bind_eq_bind, Option.some_bind, Option.bind_eq_some] at h
      obtain ⟨s3, h3, h⟩ := h
      simp only [Option.some.injEq, Prod.mk.injEq] at h
      obtain ⟨h1, _⟩ := h
      rw [← h1, scr_new_volume2]
      have p3 := foldlM_option_preserve (fun b b' : GState => scr b' j = scr b j)
        (fun b => rfl) (fun a b c hx hy => hy.trans hx) _ _
        (fun b a b' _ hstep => scr_face3_fold_step eexts _ _ j b a b' hstep) _ _ h3
      rw [p3]
      simp [scr_add_use, new_shell, scr_new_object, new_plane]
    · simp only [Option.bind_eq_bind, Option.some_bind, Option.bind_eq_some] at h
      obtain ⟨s3, h3, h⟩ := h
      simp only [Option.some.injEq, Prod.mk.injEq] at h
      obtain ⟨h1, _⟩ := h
      rw [← h1, scr_new_volume2]
      have p3 := foldlM_option_preserve (fun b b' : GState => scr b' j = scr b j)
        (fun b => rfl) (fun a b c hx hy => hy.trans hx) _ _
        (fun b a b' _ hstep => scr_face3_fold_step eexts _ _ j b a b' hstep) _ _ h3
      rw [p3]
      simp [scr_add_use, new_shell, scr_new_object, new_ruled]
    · exact absurd h (by simp)

theorem scr_copy_object (s : GState) (o : Nat) (j : Nat) :
    scr (copy_object s o).1 j = scr s j := by
  unfold copy_object
  split
  · exact scr_new_point3 s _ _ j
  · exact scr_new_object s _ j

/-- The clone-and-rewire walk writes no scratch. -/
theorem scr_copyWalk (cos : List Nat) :
    ∀ (s : GState) (out : List Nat) (s' : GState) (out' : List Nat),
    copyWalk s cos out = some (s', out') → ∀ j, scr s' j = scr s j := by
  induction cos with
  | nil =>
    intro s out s' out' h j
    unfold copyWalk at h
    simp only [Option.some.injEq, Prod.mk.injEq] at h
    rw [← h.1]
  | cons co rest ih =>
    intro s out s' out' h j
    unfold copyWalk at h
    simp only [Option.bind_eq_bind, Option.bind_eq_some] at h
    obtain ⟨s2, h2, h⟩ := h
    obtain ⟨s3, h3, h⟩ := h
    have p2 := foldlM_option_preserve (fun b b' : GState => scr b' j = scr b j)
      (fun b => rfl) (fun a b c hx hy => hy.trans hx) _ _ ?hf2 _ _ h2
    have p3 := foldlM_option_preserve (fun b b' : GState => scr b' j = scr b j)
      (fun b => rfl) (fun a b c hx hy => hy.trans hx) _ _ ?hf3 _ _ h3
    · rw [ih s3 _ s' out' h j, p3, p2]
      exact scr_copy_object s co j
    case hf2 =>
      intro b a b' _ hstep
      split at hstep
      · simp only [Option.some.injEq] at hstep
        rw [← hstep, scr_add_helper]
      · exact absurd hstep (by simp)
    case hf3 =>
      intro b a b' _ hstep
      split at hstep
      · simp only [Option.some.injEq] at hstep
        rw [← hstep, scr_add_use]
      · exact absurd hstep (by simp)

theorem scr_fold_inc_not_mem (us : List Use) (s : GState) (j : Nat)
    (hj : j ∉ us.map Use.obj) :
    scr (us.foldl (fun s' u => incScratch s' u.obj) s) j = scr s j := by
  induction us generalizing s with
  | nil => rfl
  | cons u us ih =>
    rw [List.map_cons, List.mem_cons] at hj
    push_neg at hj
    rw [List.foldl_cons, ih _ hj.2, scr_incScratch_ne s u.obj j hj.1]

/-- C8 piece: the loop sweep hands scratch back fully unset. -/
theorem extrude_loop3_allUnset (s : GState) (start : Nat) (tr : Transform)
    (shell sd : Nat) (s' : GState) (x : Extruded)
    (h : extrude_loop3 s start tr shell sd = some (s', x))
    (hscr : allScratchUnset s) : allScratchUnset s' := by
  unfold extrude_loop3 at h
  simp only [Option.bind_eq_bind, Option.bind_eq_some] at h
  obtain ⟨pe, hpe, h⟩ := h
  obtain ⟨pl, hpl, h⟩ := h
  simp only [Option.some.injEq, Prod.mk.injEq] at h
  obtain ⟨h1, _⟩ := h
  rw [← h1]
  intro j
  show scr (resetScratch (resetScratch pl.1 (loop_points (new_loop s).1 start))
    (get_objs_used (new_loop s).1 start)) j = -1
  rw [scr_resetScratch, scr_resetScratch]
  by_cases hje : j ∈ get_objs_used (new_loop s).1 start
  · simp [hje]
  · rw [if_neg hje]
    by_cases hjp : j ∈ loop_points (new_loop s).1 start
    · simp [hjp]
    · rw [if_neg hjp]
      rw [scr_extrude_loop4 pe.1 start shell sd pe.2 pl.1 pl.2 (by rw [hpl]) j]
      rw [scr_extrude_edges_not_mem _ _ tr _ pe.1 pe.2 (by rw [hpe]) j hje]
      rw [scr_extrude_points_not_mem _ _ tr j hjp]
      rw [show scr (new_loop s).1 j = scr s j from scr_new_object s LOOP j]
      exact hscr j

/-- C8 piece: the face sweep hands scratch back fully unset. -/
theorem extrude_face2_allUnset (s : GState) (face : Nat) (tr : Transform)
    (s' : GState) (x : Extruded) (h : extrude_face2 s face tr = some (s', x))
    (hscr : allScratchUnset s) : allScratchUnset s' := by
  unfold extrude_face2 at h
  simp only [Option.bind_eq_bind, Option.bind_eq_some] at h
  obtain ⟨pe, hpe, h⟩ := h
  obtain ⟨pl, hpl, h⟩ := h
  simp only [Option.some.injEq, Prod.mk.injEq] at h
  obtain ⟨h1, _⟩ := h
  rw [← h1]
  intro j
  show scr (resetScratch (resetScratch pl.1
    (filter_points (get_closure s face false true).1 (get_closure s face false true).2))
    (filter_by_dim (get_closure s face false true).1 (get_closure s face false true).2 1)) j = -1
  rw [scr_resetScratch, scr_resetScratch]
  by_cases hje : j ∈ filter_by_dim (get_closure s face false true).1 (get_closure s face false true).2 1
  · simp [hje]
  · rw [if_neg hje]
    by_cases hjp : j ∈ filter_points (get_closure s face false true).1 (get_closure s face false true).2
    · simp [hjp]
    · rw [if_neg hjp]
      rw [scr_extrude_face3 pe.1 face pe.2 pl.1 pl.2 (by rw [hpl]) j]
      rw [scr_extrude_edges_not_mem _ _ tr _ pe.1 pe.2 (by rw [hpe]) j hje]
      rw [scr_extrude_points_not_mem _ _ tr j hjp]
      exact get_closure_allUnset s face false true hscr j

theorem scr_foldl_add_groups (fes : List Extruded) (g1 g2 : Nat) (j : Nat) :
    ∀ s : GState,
    scr (fes.foldl (fun s' e => add_to_group (add_to_group s' g1 e.middle) g2 e.tip) s) j
      = scr s j := by
  induction fes with
  | nil => intro s; rfl
  | cons a l ih =>
    intro s
    rw [List.foldl_cons, ih]
    show scr (add_use (add_use s g1 0 a.middle) g2 0 a.tip) j = scr s j
    rw [scr_add_use, scr_add_use]

/-- C8 piece: the face-group sweep hands scratch back fully unset. -/
theorem extrude_face_group_allUnset (s : GState) (fg : Nat) (tr : Transform)
    (s' : GState) (x : Extruded) (h : extrude_face_group s fg tr = some (s', x))
    (hscr : allScratchUnset s) : allScratchUnset s' := by
  unfold extrude_face_group at h
  simp only [Option.bind_eq_bind, Option.bind_eq_some] at h
  obtain ⟨pe, hpe, h⟩ := h
  obtain ⟨pf, hpf, h⟩ := h
  simp only [Option.some.injEq, Prod.mk.injEq] at h
  obtain ⟨h1, _⟩ := h
  rw [← h1]
  intro j
  show scr _ j = -1
  rw [scr_foldl_add_groups]
  rw [show ∀ k : GState, scr (new_group k).1 j = scr k j from fun k => scr_new_object k GROUP j]
  rw [show ∀ k : GState, scr (new_group k).1 j = scr k j from fun k => scr_new_object k GROUP j]
  rw [scr_resetScratch, scr_resetScratch]
  by_cases hje : j ∈ filter_by_dim (get_closure s fg false true).1 (get_closure s fg false true).2 1
  · simp [hje]
  · rw [if_neg hje]
    by_cases hjp : j ∈ filter_points (get_closure s fg false true).1 (get_closure s fg false true).2
    · simp [hjp]
    · rw [if_neg hjp]
      have hstep : ∀ (b : GState × List Extruded) (a : Use) (b' : GState × List Extruded),
          ((extrude_face3 b.1 a.obj pe.2).bind fun pr => some (pr.1, b.2 ++ [pr.2])) = some b' →
          scr b'.1 j = scr b.1 j := by
        intro b a b' hst
        rw [Option.bind_eq_some] at hst
        obtain ⟨pr, hpr, hst⟩ := hst
        simp only [Option.some.injEq] at hst
        rw [← hst]
        exact scr_extrude_face3 b.1 a.obj pe.2 pr.1 pr.2 (by rw [hpr]) j
      have hfold := foldlM_option_preserve
        (fun b b' : GState × List Extruded => scr b'.1 j = scr b.1 j)
        (fun b => rfl) (fun a b c hx hy => hy.trans hx) _ _
        (fun b a b' _ hst => hstep b a b' hst) _ _ (show _ = some (pf.1, pf.2) by rw [hpf])
      rw [hfold]
      rw [scr_extrude_edges_not_mem _ _ tr _ pe.1 pe.2 (by rw [hpe]) j hje]
      rw [scr_extrude_points_not_mem _ _ tr j hjp]
      exact get_closure_allUnset s fg false true hscr j

theorem scr_modifyObj_used_append (s : GState) (i : Nat) (sv : List Use) (j : Nat) :
    scr (modifyObj s i (fun o => { o with used := o.used ++ sv })) j = scr s j := by
  apply scr_modifyObj_keep
  intro o2
  rfl

/-- C8 piece: boundary collection hands scratch back fully unset. -/
theorem collect_allUnset (s : GState) (a : Nat) (s' : GState) (b : Nat)
    (h : collect_assembly_boundary s a = some (s', b)) (hscr : allScratchUnset s) :
    allScratchUnset s' := by
  cases hg : gatherCellUses s (getObj s a).used none with
  | none =>
    unfold collect_assembly_boundary at h
    rw [hg] at h
    exact absurd h (by simp)
  | some p =>
    obtain ⟨cto, uses⟩ := p
    cases cto with
    | none =>
      unfold collect_assembly_boundary at h
      rw [hg] at h
      exact absurd h (by simp)
    | some ct =>
      cases hbt : get_boundary_type ct with
      | none =>
        unfold collect_assembly_boundary at h
        simp only [hg, hbt] at h
        exact absurd h (by simp)
      | some bt =>
        unfold collect_assembly_boundary at h
        simp only [hg, hbt] at h
        simp only [Option.some.injEq, Prod.mk.injEq] at h
        obtain ⟨h1, _⟩ := h
        rw [← h1]
        intro j
        show scr _ j = -1
        rw [scr_fold_reset]
        by_cases hm : j ∈ uses.map Use.obj
        · simp [hm]
        · rw [if_neg hm]
          rw [scr_modifyObj_used_append]
          rw [scr_new_object]
          rw [scr_fold_inc_not_mem _ _ _ hm]
          rw [scr_fold_set0]
          rw [if_neg (fun hand => hm hand.1)]
          exact hscr j

/-- C8 piece: duplication hands scratch back fully unset. -/
theorem copy_closure_allUnset (s : GState) (o : Nat) (s' : GState) (r : Nat)
    (h : copy_closure s o = some (s', r)) (hscr : allScratchUnset s) :
    allScratchUnset s' := by
  unfold copy_closure at h
  simp only [Option.bind_eq_bind, Option.bind_eq_some] at h
  obtain ⟨pw, hpw, h⟩ := h
  obtain ⟨root, hroot, h⟩ := h
  simp only [Option.some.injEq, Prod.mk.injEq] at h
  obtain ⟨h1, _⟩ := h
  rw [← h1]
  intro j
  show scr (resetScratch pw.1 (get_closure s o true true).2) j = -1
  rw [scr_resetScratch]
  by_cases hm : j ∈ (get_closure s o true true).2
  · simp [hm]
  · rw [if_neg hm]
    rw [scr_copyWalk (get_closure s o true true).2 _ [] pw.1 pw.2 (by rw [hpw]) j]
    rw [scr_foldl_setScratch_outside _ _ _ _ j (fun i hi => ?_)]
    · exact get_closure_allUnset s o true true hscr j
    · intro he
      apply hm
      rw [← he]
      have hilt : i < (get_closure s o true true).2.length := List.mem_range.mp hi
      rw [List.getD_eq_getElem _ _ hilt]
      exact List.getElem_mem hilt

theorem type_eq_of_shape_eq {o o' : Obj} (h : shape o = shape o') : o.type = o'.type :=
  congrArg Prod.fst h

theorem used_eq_of_shape_eq {o o' : Obj} (h : shape o = shape o') : o.used = o'.used :=
  congrArg (fun p => p.2.1) h

/-- Master characterization of `collect_assembly_boundary` under the
claims' preconditions: it succeeds, allocates a fresh aggregate of the
boundary kind at the next id, fills it with exactly the gathered uses
whose target occurs exactly once in the gathered total (original
relative order kept), unsets every touched scratch slot, and changes no
other object. -/
theorem collect_assembly_boundary_spec (s : GState) (assembly : Nat) (t bt : ObjType)
    (hne : (getObj s assembly).used ≠ [])
    (ht : ∀ cu ∈ (getObj s assembly).used, (getObj s cu.obj).type = t)
    (hb : ∀ cu ∈ (getObj s assembly).used, (getObj s cu.obj).used ≠ [])
    (hbt : get_boundary_type t = some bt)
    (hv : ∀ u ∈ collectUses s assembly, u.obj < s.objs.length) :
    ∃ s', collect_assembly_boundary s assembly = some (s', s.objs.length) ∧
      s'.objs.length = s.objs.length + 1 ∧
      (getObj s' s.objs.length).type = bt ∧
      (getObj s' s.objs.length).used =
        (collectUses s assembly).filter
          (fun u => (((collectUses s assembly).map Use.obj).count u.obj : Int) == 1) ∧
      (∀ j, scr s' j = if j ∈ (collectUses s assembly).map Use.obj then -1 else scr s j) ∧
      (∀ j, j ≠ s.objs.length → shape (getObj s' j) = shape (getObj s j)) := by
  have hgather := gatherCellUses_none_eq s t (getObj s assembly).used hne ht hb
  have huses : collectUsesOf s (getObj s assembly).used = collectUses s assembly := rfl
  rw [huses] at hgather
  set uses := collectUses s assembly with husesdef
  set s1 := uses.foldl (fun s' u => setScratch s' u.obj 0) s with hs1
  set s2 := uses.foldl (fun s' u => incScratch s' u.obj) s1 with hs2
  have len1 : s1.objs.length = s.objs.length :=
    length_foldl_uses _ (fun s' u => length_setScratch s' u.obj 0) uses s
  have len2 : s2.objs.length = s.objs.length := by
    rw [hs2, length_foldl_uses _ (fun s' u => length_incScratch s' u.obj) uses s1, len1]
  have hscr2 : ∀ j, scr s2 j = scr s1 j + ((uses.map Use.obj).count j : Int) := by
    intro j
    exact scr_fold_inc uses s1 j (fun u hu => len1 ▸ hv u hu)
  have hscr1 : ∀ j, scr s1 j =
      if j ∈ uses.map Use.obj ∧ j < s.objs.length then 0 else scr s j :=
    fun j => scr_fold_set0 uses s j
  -- the fresh aggregate
  set sb := new_object s2 bt with hsb
  have hbid : sb.2 = s.objs.length := by rw [hsb]; exact len2
  have hlenb : sb.1.objs.length = s.objs.length + 1 := by
    rw [hsb, length_new_object, len2]
  -- scratch of a gathered target after tallying = its occurrence count
  have hcnt : ∀ u ∈ uses, (getObj sb.1 u.obj).scratch = ((uses.map Use.obj).count u.obj : Int) := by
    intro u hu
    have hvu : u.obj < s.objs.length := hv u hu
    have e1 : scr sb.1 u.obj = scr s2 u.obj := by
      rw [hsb]
      exact scr_new_object s2 bt u.obj
    have hmem : u.obj ∈ uses.map Use.obj := List.mem_map.mpr ⟨u, hu, rfl⟩
    show scr sb.1 u.obj = _
    rw [e1, hscr2, hscr1]
    simp [hmem, hvu]
  have hsurv : uses.filter (fun u => (getObj sb.1 u.obj).scratch == 1) =
      uses.filter (fun u => ((uses.map Use.obj).count u.obj : Int) == 1) := by
    apply List.filter_congr
    intro u hu
    rw [hcnt u hu]
  set survivors := uses.filter (fun u => (getObj sb.1 u.obj).scratch == 1) with hsurvdef
  set s4 := modifyObj sb.1 sb.2 (fun o => { o with used := o.used ++ survivors }) with hs4
  set s5 := uses.foldl (fun s' u => setScratch s' u.obj (-1)) s4 with hs5
  have hcollect : collect_assembly_boundary s assembly = some (s5, sb.2) := by
    simp only [collect_assembly_boundary, hgather, hbt]
  have hlen4 : s4.objs.length = s.objs.length + 1 := by
    rw [hs4, length_modifyObj, hlenb]
  have hlen5 : s5.objs.length = s.objs.length + 1 := by
    rw [hs5, length_foldl_uses _ (fun s' u => length_setScratch s' u.obj (-1)) uses s4, hlen4]
  have hb4 : getObj s4 sb.2 = { mkObj bt with used := survivors } := by
    rw [hs4, getObj_modifyObj_self sb.1 sb.2 _ (by rw [hlenb, hbid]; omega)]
    rw [hsb, hbid]
    rw [show getObj (new_object s2 bt).1 s.objs.length = mkObj bt from by
      rw [← len2]; exact getObj_new_object_self s2 bt]
    rfl
  have hshape5 : ∀ j, shape (getObj s5 j) = shape (getObj s4 j) := by
    intro j
    rw [hs5]
    exact shape_foldl_uses _ (fun s' u j' => shape_setScratch s' u.obj (-1) j') uses s4 j
  refine ⟨s5, by rw [hcollect, hbid], hlen5, ?_, ?_, ?_, ?_⟩
  · rw [← hbid]
    have h := type_eq_of_shape_eq (hshape5 sb.2)
    rw [h, hb4]
    rfl
  · rw [← hbid]
    have h := used_eq_of_shape_eq (hshape5 sb.2)
    rw [h, hb4]
    exact hsurv
  · intro j
    have h5 : scr s5 j = if j ∈ uses.map Use.obj then -1 else scr s4 j := by
      rw [hs5]
      exact scr_fold_reset uses s4 j
    have h4 : scr s4 j = scr sb.1 j := by
      rw [hs4]
      apply scr_modifyObj_keep
      intro o2
      rfl
    have hb' : scr sb.1 j = scr s2 j := by
      rw [hsb]
      exact scr_new_object s2 bt j
    rw [h5, h4, hb', hscr2, hscr1]
    by_cases hm : j ∈ uses.map Use.obj
    · simp [hm]
    · have : (uses.map Use.obj).count j = 0 := List.count_eq_zero.mpr hm
      simp [hm, this]
  · intro j hj
    rw [hshape5 j]
    have h4 : shape (getObj s4 j) = shape (getObj sb.1 j) := by
      rw [hs4]
      exact shape_modifyObj_ne sb.1 sb.2 _ j (fun he => hj (he.trans hbid))
    rw [h4, hsb]
    rcases Nat.lt_trichotomy j s.objs.length with hlt | heq | hgt
    · rw [getObj_new_object_old s2 bt j (len2 ▸ hlt)]
      rw [shape_foldl_uses _ (fun s' u j' => shape_incScratch s' u.obj j') uses s1 j]
      rw [shape_foldl_uses _ (fun s' u j' => shape_setScratch s' u.obj 0 j') uses s j]
    · exact absurd heq hj
    · rw [getObj_new_object_oob s2 bt j (len2 ▸ hgt)]
      unfold getObj
      rw [List.getD_eq_default _ _ (Nat.le_of_lt hgt)]

/-- C1: get_closure's reversed-BFS order is NOT a topological order when
an entity is reachable at different depths.  In the graph G2 → {G0, G1},
G1 → G0 (all built by the public constructors), the returned sequence is
[G1, G0, G2]: entity 1 references entity 0 yet precedes it, violating the
children-before-parents guarantee the spec states and copy_closure's own
assertion relies on. -/
theorem C1_closure_not_topological :
    (get_closure sC1 2 true true).2 = [1, 0, 2] ∧
    (⟨0, 0⟩ : Use) ∈ (getObj sC1 1).used := by
  decide

/-- C2: copy_closure aborts (assert `idx < co->scratch` fails, and the
bounds-checked clone lookup equally throws) on the acyclic graph
Group → {P0, Line}, Line → {P0, P1}, because the closure order puts the
Line before its endpoint P0; no clone is produced at all. -/
theorem C2_copy_closure_aborts : copy_closure sC2 3 = none := by
  decide

/-- C3 counterexample: welding two unit cubes face-to-face and collecting
the assembly boundary of the two-volume group yields a shell of 11 faces,
not the 10 the claim states. -/
theorem C3_counterexample :
    ¬ c3Build.map (fun r => (getObj r.1 r.2.1).used.length) = some 10 := by
  decide

/-- C3 amended: the collected boundary is a Shell with exactly 11 of the
12 cube faces: it equals the concatenation of both volumes' shell use
lists with exactly the uses of the one shared (welded small) face
dropped; the big face, which carries the inserted hole loop, survives. -/
theorem C3_amended_eleven_faces :
    c3Build.map (fun r =>
      ((getObj r.1 r.2.1).type,
       (getObj r.1 r.2.1).used.length,
       decide ((getObj r.1 r.2.1).used =
         ((getObj r.1 (volume_shell r.1 r.2.2.1)).used ++
          (getObj r.1 (volume_shell r.1 r.2.2.2.1)).used).filter
           (fun u => u.obj ≠ r.2.2.2.2)),
       (getObj r.1 r.2.1).used.all (fun u => u.obj != r.2.2.2.2))) =
    some (SHELL, 11, true, true) := by
  decide

/-- C5 counterexample: the script export of a unit square emits the
statement `Line Loop(7) = {2,6,-8,-4};` whose subject, entity 7, is a
Loop — boundary aggregates are not skipped. -/
theorem C5_counterexample :
    c5Build.map (fun r => decide
      (Stmt.simpleStmt 7 LOOP [2, 6, -8, -4] ∈ print_closure r.1 r.2 ∧
       (getObj r.1 7).type = LOOP)) = some true := by
  decide

/-- C5 amended: the script export's first pass emits exactly one
definition statement per closure entity in closure order, skipping only
Groups; Loops and Shells do emit statements (and Physical tags and `In`
lines define no entity). -/
theorem C5_amended_one_stmt_per_entity (s : GState) (root : Nat) :
    (print_closure s root).filterMap stmtSubject =
      (get_closure s root true true).2.filter
        (fun o => !((getObj (get_closure s root true true).1 o).type == GROUP)) := by
  unfold print_closure print_first_pass print_second_pass
  rw [List.filterMap_append, filterMap_stmtSubject_flatMap_print_object,
    flatMap_print_object_physical]
  simp [stmtSubject]

/-- C6 counterexample: the arc's center (entity 1, a Point) appears in
the first pass's output (one definition statement) but receives no
Physical statement: the second pass walks the closure without helpers. -/
theorem C6_counterexample :
    ((print_closure sC6 3).countP (fun st =>
      match st with
      | Stmt.pointStmt i _ _ => i == 1
      | _ => false) = 1) ∧
    ((print_closure sC6 3).countP (fun st =>
      match st with
      | Stmt.physStmt _ i => i == 1
      | _ => false) = 0) ∧
    (getObj sC6 1).type = POINT := by
  decide

/-- C6 amended: the second pass emits `Physical <DimName>(id) = {id};`
exactly for the dimensioned entities of the closure recomputed WITHOUT
helpers (so helper points such as arc centers receive no tag), and none
for any Loop, Shell, or Group. -/
theorem C6_amended_physical_pass (s : GState) (root : Nat) :
    print_second_pass s root =
      ((get_closure (get_closure s root true true).1 root false true).2.filter
        (fun o => is_entity
          (getObj (get_closure (get_closure s root true true).1 root false true).1 o).type)).map
      (fun o => Stmt.physStmt
        (getObj (get_closure (get_closure s root true true).1 root false true).1 o).type o) := by
  unfold print_second_pass
  rw [flatMap_print_object_physical]

/-- C9: in the ELLIPSE case of eval, whenever the endpoint-to-major-axis
check fails (so the endpoint swap branch is entered), the re-validation
tests the identical stale vectors `cb`, `cm` again, so the evaluation
always reports the fatal quarter-ellipse usage error — for every
collaborator predicate pair, heap, ellipse and parameter, even when the
swapped assignment would be valid. -/
theorem C9_ellipse_swap_always_fatal (par perp : Vec → Vec → Bool) (s : GState)
    (o : Nat) (u : ℚ)
    (h : par ((getObj s (edge_point s o 1)).pos - (getObj s (ellipse_center s o)).pos)
           ((getObj s (ellipse_major_pt s o)).pos - (getObj s (ellipse_center s o)).pos)
         = false) :
    eval_ellipse par perp s o u = EllipseEvalResult.fatalMajor := by
  unfold eval_ellipse
  simp [h]

/-- C9 witness: the concrete ellipse of `sC9` fails the check under the
exact cross-product parallelism test (its second endpoint is on the minor
axis), so evaluation aborts, although the swapped assignment is a valid
quarter ellipse (first endpoint on the major axis). -/
theorem C9_witness :
    eval_ellipse exact_par exact_perp sC9 4 (1 / 3) = EllipseEvalResult.fatalMajor ∧
    exact_par ((getObj sC9 (edge_point sC9 4 0)).pos - (getObj sC9 (ellipse_center sC9 4)).pos)
      ((getObj sC9 (ellipse_major_pt sC9 4)).pos - (getObj sC9 (ellipse_center sC9 4)).pos)
      = true :=
  ⟨C9_ellipse_swap_always_fatal exact_par exact_perp sC9 4 (1 / 3) (by decide), by decide⟩

/-- C4: for every Group of same-kind cells of dimension 2 or 3, each with
a boundary aggregate, collect_assembly_boundary returns a NEW aggregate
(allocated at the next fresh id) of kind Shell for dimension-3 cells and
Loop for dimension-2 cells, containing exactly those gathered oriented
uses whose target occurs exactly once in total across all cells, in
original relative order (uses of targets occurring twice or more are
dropped), and every touched scratch slot is unset on return. -/
theorem C4_collect_assembly_boundary (s : GState) (assembly : Nat) (t : ObjType)
    (hne : (getObj s assembly).used ≠ [])
    (ht : ∀ cu ∈ (getObj s assembly).used, (getObj s cu.obj).type = t)
    (hb : ∀ cu ∈ (getObj s assembly).used, (getObj s cu.obj).used ≠ [])
    (hdim : type_dims t = 2 ∨ type_dims t = 3)
    (hv : ∀ u ∈ collectUses s assembly, u.obj < s.objs.length)
    (hscr : allScratchUnset s) :
    ∃ s', collect_assembly_boundary s assembly = some (s', s.objs.length) ∧
      (getObj s' s.objs.length).type = (if type_dims t = 3 then SHELL else LOOP) ∧
      (getObj s' s.objs.length).used =
        (collectUses s assembly).filter
          (fun u => (((collectUses s assembly).map Use.obj).count u.obj : Int) == 1) ∧
      allScratchUnset s' := by
  have hbt : get_boundary_type t = some (if type_dims t = 3 then SHELL else LOOP) := by
    rcases hdim with h | h <;> simp [get_boundary_type, h]
  obtain ⟨s', h1, _, htype, hused, hscrf, _⟩ :=
    collect_assembly_boundary_spec s assembly t _ hne ht hb hbt hv
  refine ⟨s', h1, htype, hused, ?_⟩
  intro j
  have h := hscrf j
  rw [show (getObj s' j).scratch = scr s' j from rfl, h]
  by_cases hm : j ∈ (collectUses s assembly).map Use.obj
  · simp [hm]
  · simp only [hm, if_false]
    exact hscr j

/-- C4 witness: two planes (cells 4 and 6 of store sC4) sharing curve 2,
grouped under id 7; the collected boundary keeps curves 0 and 1 and
drops the shared curve. -/
theorem C4_witness :
    ∃ s', collect_assembly_boundary sC4 7 = some (s', sC4.objs.length) ∧
      (getObj s' sC4.objs.length).type = (if type_dims PLANE = 3 then SHELL else LOOP) ∧
      (getObj s' sC4.objs.length).used =
        (collectUses sC4 7).filter
          (fun u => (((collectUses sC4 7).map Use.obj).count u.obj : Int) == 1) ∧
      allScratchUnset s' :=
  C4_collect_assembly_boundary sC4 7 PLANE (by decide) (by decide) (by decide)
    (Or.inl (by decide)) (by decide) (by decide)

/-- C10: for every Group of same-kind cells each carrying MORE than one
boundary use, collect_assembly_boundary tallies and emits only uses
drawn from each cell's first used entity: the result equals the
once-occurring filter of the first-aggregate uses alone, and every use
in the result is a use of some cell's first boundary aggregate — uses of
any further boundary aggregate never appear. -/
theorem C10_only_first_boundary_collected (s : GState) (assembly : Nat) (t : ObjType)
    (hne : (getObj s assembly).used ≠ [])
    (ht : ∀ cu ∈ (getObj s assembly).used, (getObj s cu.obj).type = t)
    (hmulti : ∀ cu ∈ (getObj s assembly).used, 1 < (getObj s cu.obj).used.length)
    (hdim : type_dims t = 2 ∨ type_dims t = 3)
    (hv : ∀ u ∈ collectUses s assembly, u.obj < s.objs.length) :
    ∃ s', collect_assembly_boundary s assembly = some (s', s.objs.length) ∧
      (getObj s' s.objs.length).used =
        (collectUses s assembly).filter
          (fun u => (((collectUses s assembly).map Use.obj).count u.obj : Int) == 1) ∧
      (∀ u ∈ (getObj s' s.objs.length).used,
        ∃ cu ∈ (getObj s assembly).used, u ∈ (getObj s (cell_boundary s cu.obj)).used) := by
  have hb : ∀ cu ∈ (getObj s assembly).used, (getObj s cu.obj).used ≠ [] := by
    intro cu hcu hnil
    have h := hmulti cu hcu
    rw [hnil] at h
    simp at h
  have hbt : get_boundary_type t = some (if type_dims t = 3 then SHELL else LOOP) := by
    rcases hdim with h | h <;> simp [get_boundary_type, h]
  obtain ⟨s', h1, _, _, hused, _, _⟩ :=
    collect_assembly_boundary_spec s assembly t _ hne ht hb hbt hv
  refine ⟨s', h1, hused, ?_⟩
  intro u hu
  rw [hused] at hu
  have hu2 : u ∈ collectUses s assembly := List.mem_of_mem_filter hu
  unfold collectUses collectUsesOf at hu2
  exact List.mem_flatMap.mp hu2

/-- A succeeding optional computation equals `some` of its extracted
value. -/
theorem eq_some_getD {A : Type} (o : Option A) (d : A) (h : o.isSome = true) :
    o = some (o.getD d) := by
  cases o with
  | none => exact absurd h (by simp)
  | some a => rfl

/-- C8: scratch hygiene of the public operations: starting from a heap
whose every scratch slot is unset, closure computation, point extrusion,
curve extrusion, loop extrusion, face extrusion, face-group extrusion,
boundary collection and duplication each return (whenever they return) a
heap whose every scratch slot is unset again — no operation leaves
scratch populated across calls. -/
theorem C8_scratch_clean_across_operations :
    (∀ (s : GState) (root : Nat) (hh ee : Bool), allScratchUnset s →
      allScratchUnset (get_closure s root hh ee).1) ∧
    (∀ (s : GState) (p : Nat) (tr : Transform), allScratchUnset s →
      allScratchUnset (extrude_point2 s p tr).1) ∧
    (∀ (s : GState) (e : Nat) (tr : Transform) (l r : Extruded) (s' : GState) (x : Extruded),
      allScratchUnset s → extrude_edge3 s e tr l r = some (s', x) → allScratchUnset s') ∧
    (∀ (s : GState) (lp : Nat) (tr : Transform) (shell sd : Nat) (s' : GState) (x : Extruded),
      allScratchUnset s → extrude_loop3 s lp tr shell sd = some (s', x) → allScratchUnset s') ∧
    (∀ (s : GState) (f : Nat) (tr : Transform) (s' : GState) (x : Extruded),
      allScratchUnset s → extrude_face2 s f tr = some (s', x) → allScratchUnset s') ∧
    (∀ (s : GState) (g : Nat) (tr : Transform) (s' : GState) (x : Extruded),
      allScratchUnset s → extrude_face_group s g tr = some (s', x) → allScratchUnset s') ∧
    (∀ (s : GState) (a : Nat) (s' : GState) (b : Nat),
      allScratchUnset s → collect_assembly_boundary s a = some (s', b) → allScratchUnset s') ∧
    (∀ (s : GState) (o : Nat) (s' : GState) (r : Nat),
      allScratchUnset s → copy_closure s o = some (s', r) → allScratchUnset s') := by
  refine ⟨fun s root hh ee h => get_closure_allUnset s root hh ee h,
    fun s p tr h j => ?_,
    fun s e tr l r s' x h hsucc j => ?_,
    fun s lp tr shell sd s' x h hsucc => extrude_loop3_allUnset s lp tr shell sd s' x hsucc h,
    fun s f tr s' x h hsucc => extrude_face2_allUnset s f tr s' x hsucc h,
    fun s g tr s' x h hsucc => extrude_face_group_allUnset s g tr s' x hsucc h,
    fun s a s' b h hsucc => collect_allUnset s a s' b hsucc h,
    fun s o s' r h hsucc => copy_closure_allUnset s o s' r hsucc h⟩
  · rw [show (getObj (extrude_point2 s p tr).1 j).scratch = scr (extrude_point2 s p tr).1 j
      from rfl, scr_extrude_point2]
    exact h j
  · rw [show (getObj s' j).scratch = scr s' j from rfl,
      scr_extrude_edge3 s e tr l r s' x hsucc j]
    exact h j

/-- C8 witness: each operation applied to a small concrete clean store
(the counterexample group store for closure, a line for point and curve
sweeps, a bigon loop, the unit square face, a one-face group, the two
shared-edge faces, and the arc) ends with every scratch slot unset. -/
theorem C8_witness :
    allScratchUnset (get_closure sC1 2 true true).1 ∧
    allScratchUnset (extrude_point2 sC8line 0 trW).1 ∧
    allScratchUnset ((extrude_edge3 sC8line 2 trW ⟨0, 0⟩ ⟨1, 1⟩).getD default).1 ∧
    allScratchUnset ((extrude_loop3 sC8loop 4 trW 5 0).getD default).1 ∧
    allScratchUnset ((extrude_face2 sSquare squareFace trW).getD default).1 ∧
    allScratchUnset ((extrude_face_group sFaceGroup sFaceGroupId trW).getD default).1 ∧
    allScratchUnset ((collect_assembly_boundary sC4 7).getD default).1 ∧
    allScratchUnset ((copy_closure sC6 3).getD default).1 :=
  ⟨C8_scratch_clean_across_operations.1 sC1 2 true true (by decide),
   C8_scratch_clean_across_operations.2.1 sC8line 0 trW (by decide),
   C8_scratch_clean_across_operations.2.2.1 sC8line 2 trW ⟨0, 0⟩ ⟨1, 1⟩
     ((extrude_edge3 sC8line 2 trW ⟨0, 0⟩ ⟨1, 1⟩).getD default).1
     ((extrude_edge3 sC8line 2 trW ⟨0, 0⟩ ⟨1, 1⟩).getD default).2
     (by decide) (eq_some_getD _ default (by decide)),
   C8_scratch_clean_across_operations.2.2.2.1 sC8loop 4 trW 5 0
     ((extrude_loop3 sC8loop 4 trW 5 0).getD default).1
     ((extrude_loop3 sC8loop 4 trW 5 0).getD default).2
     (by decide) (eq_some_getD _ default (by decide)),
   C8_scratch_clean_across_operations.2.2.2.2.1 sSquare squareFace trW
     ((extrude_face2 sSquare squareFace trW).getD default).1
     ((extrude_face2 sSquare squareFace trW).getD default).2
     (by decide) (eq_some_getD _ default (by decide)),
   C8_scratch_clean_across_operations.2.2.2.2.2.1 sFaceGroup sFaceGroupId trW
     ((extrude_face_group sFaceGroup sFaceGroupId trW).getD default).1
     ((extrude_face_group sFaceGroup sFaceGroupId trW).getD default).2
     (by decide) (eq_some_getD _ default (by decide)),
   C8_scratch_clean_across_operations.2.2.2.2.2.2.1 sC4 7
     ((collect_assembly_boundary sC4 7).getD default).1
     ((collect_assembly_boundary sC4 7).getD default).2
     (by decide) (eq_some_getD _ default (by decide)),
   C8_scratch_clean_across_operations.2.2.2.2.2.2.2 sC6 3
     ((copy_closure sC6 3).getD default).1
     ((copy_closure sC6 3).getD default).2
     (by decide) (eq_some_getD _ default (by decide))⟩

/-- C10 witness: store sC10's two planes (cells 5 and 8, grouped under
10) each carry a second (void) boundary loop over curve 3; the collected
boundary is built from the first loops only, so curve 3 never appears. -/
theorem C10_witness :
    ∃ s', collect_assembly_boundary sC10 10 = some (s', sC10.objs.length) ∧
      (getObj s' sC10.objs.length).used =
        (collectUses sC10 10).filter
          (fun u => (((collectUses sC10 10).map Use.obj).count u.obj : Int) == 1) ∧
      (∀ u ∈ (getObj s' sC10.objs.length).used,
        ∃ cu ∈ (getObj sC10 10).used, u ∈ (getObj sC10 (cell_boundary sC10 cu.obj)).used) :=
  C10_only_first_boundary_collected sC10 10 PLANE (by decide) (by decide) (by decide)
    (Or.inl (by decide)) (by decide)

/-- A flatMap whose function vanishes on every element is empty. -/
theorem flatMap_eq_nil_of_forall {α β : Type} (l : List α) (g : α → List β)
    (h : ∀ x ∈ l, g x = []) : l.flatMap g = [] := by
  induction l with
  | nil => rfl
  | cons a t ih =>
    rw [List.flatMap_cons, h a (List.mem_cons_self a t),
      ih (fun x hx => h x (List.mem_cons_of_mem _ hx)), List.nil_append]

/-- A flatMap over a duplicate-free list whose function vanishes except at
one member reduces to that member's image. -/
theorem flatMap_eq_single {α β : Type} (l : List α) (g : α → List β) (a : α)
    (ha : a ∈ l) (hnd : l.Nodup)
    (hz : ∀ x ∈ l, x ≠ a → g x = []) : l.flatMap g = g a := by
  induction l with
  | nil => cases ha
  | cons b t ih =>
    rcases List.mem_cons.mp ha with hba | hat
    · subst hba
      have hnt : ∀ x ∈ t, g x = [] := by
        intro x hx
        exact hz x (List.mem_cons_of_mem _ hx)
          (fun hxa => (List.nodup_cons.mp hnd).1 (hxa ▸ hx))
      rw [List.flatMap_cons, flatMap_eq_nil_of_forall t g hnt, List.append_nil]
    · have hba : b ≠ a := fun h => (List.nodup_cons.mp hnd).1 (h ▸ hat)
      rw [List.flatMap_cons, hz b (List.mem_cons_self b t) hba, List.nil_append]
      exact ih hat (List.nodup_cons.mp hnd).2
        (fun x hx hxa => hz x (List.mem_cons_of_mem _ hx) hxa)

/-- Rotating a valid simple cycle yields a valid simple cycle. -/
theorem isCycle_rotate (s : GState) (c : List Use) (k : Nat) (h : IsCycle s c) :
    IsCycle s (c.rotate k) := by
  obtain ⟨hne, hdir, hobj, hlead, hcyc⟩ := h
  have hlen : (c.rotate k).length = c.length := List.length_rotate c k
  have hn : 0 < c.length := List.length_pos.mpr hne
  refine ⟨?_, ?_, ?_, ?_, ?_⟩
  · intro h0
    apply hne
    apply List.length_eq_zero.mp
    rw [← hlen, h0]
    rfl
  · intro u hu
    exact hdir u (List.mem_rotate.mp hu)
  · rw [List.map_rotate]
    exact List.nodup_rotate.mpr hobj
  · rw [List.map_rotate]
    exact List.nodup_rotate.mpr hlead
  · intro i
    have hA : ((i : Nat) + k) % c.length < c.length := Nat.mod_lt _ hn
    have hB : (((i : Nat) + k) % c.length + 1) % c.length < c.length := Nat.mod_lt _ hn
    have hC : (((i : Nat) + 1) % (c.rotate k).length + k) % c.length < c.length :=
      Nat.mod_lt _ hn
    have hD : ((i : Nat) + 1) % (c.rotate k).length < (c.rotate k).length :=
      Nat.mod_lt _ (by rw [hlen]; exact hn)
    have hv0 : ∀ v : Nat, ((v + k) % c.length + 1) % c.length
        = ((v + 1) % (c.rotate k).length + k) % c.length := by
      intro v
      rw [hlen, Nat.mod_add_mod, Nat.mod_add_mod]
      have h3 : v + k + 1 = v + 1 + k := by omega
      rw [h3]
    have hv := hv0 (i : Nat)
    calc trailPt s ((c.rotate k).get i)
        = trailPt s (c.get ⟨((i : Nat) + k) % c.length, hA⟩) := by
          rw [List.get_rotate]
      _ = leadPt s (c.get ⟨(((i : Nat) + k) % c.length + 1) % c.length, hB⟩) :=
          hcyc ⟨((i : Nat) + k) % c.length, hA⟩
      _ = leadPt s (c.get ⟨(((i : Nat) + 1) % (c.rotate k).length + k) % c.length, hC⟩) :=
          congrArg (fun j => leadPt s (c.get j)) (Fin.ext hv)
      _ = leadPt s ((c.rotate k).get ⟨((i : Nat) + 1) % (c.rotate k).length, hD⟩) := by
          rw [List.get_rotate]

/-- Rebuilding a use from an explicit Forward orientation is the identity. -/
theorem use_eta_zero (u : Use) (h : u.dir = 0) : (⟨0, u.obj⟩ : Use) = u := by
  cases u with
  | mk d o =>
    rw [show d = 0 from h]

/-- Rebuilding a use from an explicit Reverse orientation is the identity. -/
theorem use_eta_one (u : Use) (h : u.dir = 1) : (⟨1, u.obj⟩ : Use) = u := by
  cases u with
  | mk d o =>
    rw [show d = 1 from h]

/-- On a simple cycle, the `equal_range` scan of `unscramble_loop` at the
trailing point of cycle position `m'` (filtered against the curve just
consumed) finds exactly the cycle's next use. -/
theorem cands_of_cycle (s : GState) (uses c' : List Use) (m' : Nat)
    (hcyc : IsCycle s c') (hperm : uses.Perm c') (hm : m' + 1 < c'.length) :
    (((loopIncidence s uses).filter
        (fun e => e.1 == leadPt s (c'.get ⟨m' + 1, hm⟩))).map Prod.snd).filter
      (fun u => u.obj ≠ (c'.get ⟨m', Nat.lt_of_succ_lt hm⟩).obj)
      = [c'.get ⟨m' + 1, hm⟩] := by
  obtain ⟨hne, hdir, hobj, hlead, hcy⟩ := hcyc
  have hnodup : c'.Nodup := List.Nodup.of_map Use.obj hobj
  have leadInj : ∀ x ∈ c', ∀ y ∈ c', leadPt s x = leadPt s y → x = y :=
    fun x hx y hy he => List.inj_on_of_nodup_map hlead hx hy he
  have objInj : ∀ x ∈ c', ∀ y ∈ c', x.obj = y.obj → x = y :=
    fun x hx y hy he => List.inj_on_of_nodup_map hobj hx hy he
  have getInj : ∀ i j : Fin c'.length, c'.get i = c'.get j → i = j :=
    fun i j he => List.nodup_iff_injective_get.mp hnodup he
  have trailCl : ∀ j : Fin c'.length,
      trailPt s (c'.get j) = leadPt s (c'.get ⟨m' + 1, hm⟩) → (j : Nat) = m' := by
    intro j hj
    have h2 : leadPt s (c'.get ⟨((j : Nat) + 1) % c'.length, Nat.mod_lt _ j.pos⟩)
        = leadPt s (c'.get ⟨m' + 1, hm⟩) := (hcy j).symm.trans hj
    have h3 := leadInj _ (c'.get_mem _ _) _ (c'.get_mem _ _) h2
    have h5 : ((j : Nat) + 1) % c'.length = m' + 1 := congrArg Fin.val (getInj _ _ h3)
    have hjlt : (j : Nat) < c'.length := j.isLt
    rcases Nat.lt_or_ge ((j : Nat) + 1) c'.length with hlt | hge
    · rw [Nat.mod_eq_of_lt hlt] at h5
      omega
    · have he : (j : Nat) + 1 = c'.length := by omega
      rw [he, Nat.mod_self] at h5
      omega
  have leadCl : ∀ x ∈ c', leadPt s x = leadPt s (c'.get ⟨m' + 1, hm⟩) →
      x = c'.get ⟨m' + 1, hm⟩ :=
    fun x hx he => leadInj x hx _ (c'.get_mem _ _) he
  have hobja : (c'.get ⟨m' + 1, hm⟩).obj ≠ (c'.get ⟨m', Nat.lt_of_succ_lt hm⟩).obj := by
    intro he
    have h3 := objInj _ (c'.get_mem _ _) _ (c'.get_mem _ _) he
    have h5 : m' + 1 = m' := congrArg Fin.val (getInj _ _ h3)
    omega
  have htraila : trailPt s (c'.get ⟨m' + 1, hm⟩) ≠ leadPt s (c'.get ⟨m' + 1, hm⟩) := by
    intro he
    have h5 : m' + 1 = m' := trailCl ⟨m' + 1, hm⟩ he
    omega
  have hpermI : (loopIncidence s uses).Perm (loopIncidence s c') :=
    List.Perm.flatMap_right _ hperm
  have hsing : (((loopIncidence s c').filter
        (fun e => e.1 == leadPt s (c'.get ⟨m' + 1, hm⟩))).map Prod.snd).filter
      (fun u => u.obj ≠ (c'.get ⟨m', Nat.lt_of_succ_lt hm⟩).obj)
      = [c'.get ⟨m' + 1, hm⟩] := by
    unfold loopIncidence
    rw [List.filter_flatMap, List.map_flatMap, List.filter_flatMap]
    refine (flatMap_eq_single c' _ (c'.get ⟨m' + 1, hm⟩) (c'.get_mem _ _) hnodup ?_).trans ?_
    · intro x hx hxa
      have hlxp : leadPt s x ≠ leadPt s (c'.get ⟨m' + 1, hm⟩) :=
        fun he => hxa (leadCl x hx he)
      by_cases htx : trailPt s x = leadPt s (c'.get ⟨m' + 1, hm⟩)
      · obtain ⟨j, hj⟩ := List.mem_iff_get.mp hx
        have hjm : (j : Nat) = m' := trailCl j (by rw [hj]; exact htx)
        have hxl : x = c'.get ⟨m', Nat.lt_of_succ_lt hm⟩ := by
          rw [← hj]
          exact congrArg c'.get (Fin.ext hjm)
        rcases hdir x hx with h0 | h1
        · have hE0 : edge_point s x.obj 0 = leadPt s x := by
            simp only [leadPt]
            rw [h0]
          have hE1 : edge_point s x.obj 1 = trailPt s x := by
            simp only [trailPt]
            rw [h0]
          have hxo : x.obj = (c'.get ⟨m', Nat.lt_of_succ_lt hm⟩).obj := by rw [hxl]
          rw [hE0, hE1]
          simp only [List.get_eq_getElem] at hlxp htx hxo
          simp [List.filter_cons, hlxp, htx, hxo]
        · have hE0 : edge_point s x.obj 0 = trailPt s x := by
            simp only [trailPt]
            rw [h1]
          have hE1 : edge_point s x.obj 1 = leadPt s x := by
            simp only [leadPt]
            rw [h1]
          have hxo : x.obj = (c'.get ⟨m', Nat.lt_of_succ_lt hm⟩).obj := by rw [hxl]
          rw [hE0, hE1]
          simp only [List.get_eq_getElem] at hlxp htx hxo
          simp [List.filter_cons, hlxp, htx, hxo]
      · rcases hdir x hx with h0 | h1
        · have hE0 : edge_point s x.obj 0 = leadPt s x := by
            simp only [leadPt]
            rw [h0]
          have hE1 : edge_point s x.obj 1 = trailPt s x := by
            simp only [trailPt]
            rw [h0]
          rw [hE0, hE1]
          simp only [List.get_eq_getElem] at hlxp htx
          simp [List.filter_cons, hlxp, htx]
        · have hE0 : edge_point s x.obj 0 = trailPt s x := by
            simp only [trailPt]
            rw [h1]
          have hE1 : edge_point s x.obj 1 = leadPt s x := by
            simp only [leadPt]
            rw [h1]
          rw [hE0, hE1]
          simp only [List.get_eq_getElem] at hlxp htx
          simp [List.filter_cons, hlxp, htx]
    · rcases hdir _ (c'.get_mem (m' + 1) hm) with h0 | h1
      · have hE0 : edge_point s (c'.get ⟨m' + 1, hm⟩).obj 0
            = leadPt s (c'.get ⟨m' + 1, hm⟩) := by
          simp only [leadPt]
          rw [h0]
        have hE1 : edge_point s (c'.get ⟨m' + 1, hm⟩).obj 1
            = trailPt s (c'.get ⟨m' + 1, hm⟩) := by
          simp only [trailPt]
          rw [h0]
        have huse : (⟨0, (c'.get ⟨m' + 1, hm⟩).obj⟩ : Use) = c'.get ⟨m' + 1, hm⟩ :=
          use_eta_zero _ h0
        rw [hE0, hE1]
        simp only [List.get_eq_getElem] at htraila huse hobja
        simp [List.filter_cons, htraila, huse, hobja]
      · have hE0 : edge_point s (c'.get ⟨m' + 1, hm⟩).obj 0
            = trailPt s (c'.get ⟨m' + 1, hm⟩) := by
          simp only [trailPt]
          rw [h1]
        have hE1 : edge_point s (c'.get ⟨m' + 1, hm⟩).obj 1
            = leadPt s (c'.get ⟨m' + 1, hm⟩) := by
          simp only [leadPt]
          rw [h1]
        have huse : (⟨1, (c'.get ⟨m' + 1, hm⟩).obj⟩ : Use) = c'.get ⟨m' + 1, hm⟩ :=
          use_eta_one _ h1
        rw [hE0, hE1]
        simp only [List.get_eq_getElem] at htraila huse hobja
        simp [List.filter_cons, htraila, huse, hobja]
  apply List.perm_singleton.mp
  rw [← hsing]
  exact ((hpermI.filter _).map Prod.snd).filter _

/-- One while-iteration of `unscramble_loop` run from the reversed prefix
chain extends the chain by the cycle's next use. -/
theorem unscrambleStep_cycle (s : GState) (uses c' : List Use) (m' : Nat) (r : List Use)
    (hcyc : IsCycle s c') (hperm : uses.Perm c') (hm : m' + 1 < c'.length) :
    unscrambleStep s (loopIncidence s uses)
        (c'.get ⟨m', Nat.lt_of_succ_lt hm⟩ :: r)
      = c'.get ⟨m' + 1, hm⟩ :: c'.get ⟨m', Nat.lt_of_succ_lt hm⟩ :: r := by
  have hp : edge_point s (c'.get ⟨m', Nat.lt_of_succ_lt hm⟩).obj
      (1 - (c'.get ⟨m', Nat.lt_of_succ_lt hm⟩).dir) = leadPt s (c'.get ⟨m' + 1, hm⟩) := by
    have h1 : trailPt s (c'.get ⟨m', Nat.lt_of_succ_lt hm⟩)
        = leadPt s (c'.get ⟨(m' + 1) % c'.length,
            Nat.mod_lt _ (Fin.pos ⟨m', Nat.lt_of_succ_lt hm⟩)⟩) :=
      hcyc.2.2.2.2 ⟨m', Nat.lt_of_succ_lt hm⟩
    exact h1.trans
      (congrArg (fun j => leadPt s (c'.get j)) (Fin.ext (Nat.mod_eq_of_lt hm)))
  simp only [unscrambleStep]
  rw [hp, cands_of_cycle s uses c' m' hcyc hperm hm]
  rfl

/-- The reversed take-prefix of a list pops its last element as head. -/
theorem take_reverse_cons (c' : List Use) (m' : Nat) (h : m' < c'.length) :
    (c'.take (m' + 1)).reverse = c'.get ⟨m', h⟩ :: (c'.take m').reverse := by
  have hg : c'[m']? = some (c'.get ⟨m', h⟩) := by
    rw [List.getElem?_eq_getElem h]
    rfl
  rw [List.take_succ, hg]
  simp

/-- The while loop of `unscramble_loop`, started on any reversed nonempty
prefix of the cycle with enough fuel, completes to the reversed cycle. -/
theorem unscrambleGo_cycle (s : GState) (uses c' : List Use)
    (hcyc : IsCycle s c') (hperm : uses.Perm c') :
    ∀ fuel m, 1 ≤ m → m ≤ c'.length → c'.length - m ≤ fuel →
    unscrambleGo s (loopIncidence s uses) c'.length fuel ((c'.take m).reverse)
      = some c'.reverse := by
  intro fuel
  induction fuel with
  | zero =>
    intro m h1 h2 h3
    have hm : m = c'.length := by omega
    subst hm
    rw [List.take_length]
    simp only [unscrambleGo]
    rw [if_neg (by simp)]
  | succ f ih =>
    intro m h1 h2 h3
    by_cases hmn : m < c'.length
    · obtain ⟨m', rfl⟩ : ∃ m', m = m' + 1 := ⟨m - 1, by omega⟩
      have hlt : m' < c'.length := by omega
      have hlen : ((c'.take (m' + 1)).reverse).length = m' + 1 := by
        rw [List.length_reverse, List.length_take]
        omega
      simp only [unscrambleGo]
      rw [if_pos (by rw [hlen]; exact hmn)]
      have hstep : unscrambleStep s (loopIncidence s uses) ((c'.take (m' + 1)).reverse)
          = (c'.take (m' + 1 + 1)).reverse := by
        rw [take_reverse_cons c' m' hlt, take_reverse_cons c' (m' + 1) hmn,
          take_reverse_cons c' m' hlt]
        exact unscrambleStep_cycle s uses c' m' ((c'.take m').reverse) hcyc hperm hmn
      rw [hstep]
      exact ih (m' + 1 + 1) (by omega) (by omega) (by omega)
    · have hm : m = c'.length := by omega
      subst hm
      rw [List.take_length]
      simp only [unscrambleGo]
      rw [if_neg (by simp)]

/-- C7: for every Loop whose use list is a permutation of a valid simple
closed cycle of curves, `unscramble_loop` succeeds and rewrites the use
list into a chain in which each consecutive pair of uses shares an
endpoint (the trailing endpoint of use i, respecting orientation, equals
the leading endpoint of use i+1), and the new use list is a permutation
of the old one, so the multiset (hence set) of (orientation, curve) uses
is unchanged. -/
theorem C7_unscramble_valid_cycle (s : GState) (loop : Nat) (c : List Use)
    (hcyc : IsCycle s c) (hperm : ((getObj s loop).used).Perm c) :
    ∃ r : List Use,
      unscramble_loop s loop =
        some (modifyObj s loop (fun o => { o with used := r })) ∧
      r.Perm (getObj s loop).used ∧
      ∀ i : Nat, ∀ hi : i + 1 < r.length,
        trailPt s (r.get ⟨i, Nat.lt_of_succ_lt hi⟩) = leadPt s (r.get ⟨i + 1, hi⟩) := by
  have hne : c ≠ [] := hcyc.1
  have hn : 0 < c.length := List.length_pos.mpr hne
  cases hU : (getObj s loop).used with
  | nil =>
    rw [hU] at hperm
    exact absurd (List.nil_perm.mp hperm) hne
  | cons u0 rest =>
    have hu0c : u0 ∈ c := hperm.mem_iff.mp (by rw [hU]; exact List.mem_cons_self u0 rest)
    obtain ⟨k, hk⟩ := List.mem_iff_get.mp hu0c
    have hcyc' : IsCycle s (c.rotate (k : Nat)) := isCycle_rotate s c (k : Nat) hcyc
    have hperm' : ((getObj s loop).used).Perm (c.rotate (k : Nat)) :=
      hperm.trans (List.rotate_perm c (k : Nat)).symm
    have hlenc' : (c.rotate (k : Nat)).length = c.length := List.length_rotate c (k : Nat)
    have h0' : (0 : Nat) < (c.rotate (k : Nat)).length := by
      rw [hlenc']
      exact hn
    have hc'0 : (c.rotate (k : Nat)).get ⟨0, h0'⟩ = u0 := by
      rw [List.get_rotate]
      rw [← hk]
      refine congrArg c.get (Fin.ext ?_)
      show (0 + (k : Nat)) % c.length = (k : Nat)
      rw [Nat.zero_add, Nat.mod_eq_of_lt k.isLt]
    have htake1 : ((c.rotate (k : Nat)).take 1).reverse = [u0] := by
      rw [take_reverse_cons (c.rotate (k : Nat)) 0 h0', hc'0]
      rfl
    have hgo : unscrambleGo s (loopIncidence s (getObj s loop).used)
        (c.rotate (k : Nat)).length (c.rotate (k : Nat)).length
        (((c.rotate (k : Nat)).take 1).reverse) = some (c.rotate (k : Nat)).reverse :=
      unscrambleGo_cycle s (getObj s loop).used (c.rotate (k : Nat)) hcyc' hperm'
        (c.rotate (k : Nat)).length 1 (by omega) (by rw [hlenc']; omega) (by omega)
    rw [htake1, hU] at hgo
    have hlu : (u0 :: rest).length = (c.rotate (k : Nat)).length := by
      rw [← hU]
      exact hperm'.length_eq
    refine ⟨c.rotate (k : Nat), ?_, ?_, ?_⟩
    · unfold unscramble_loop
      rw [hU]
      simp only [List.head?_cons]
      rw [hlu, hgo]
      rw [Option.map_some']
      rw [List.reverse_reverse]
    · rw [← hU]
      exact (List.rotate_perm c (k : Nat)).trans hperm.symm
    · intro i hi
      have h1 := hcyc'.2.2.2.2 ⟨i, Nat.lt_of_succ_lt hi⟩
      rw [h1]
      exact congrArg (fun j => leadPt s ((c.rotate (k : Nat)).get j))
        (Fin.ext (Nat.mod_eq_of_lt hi))

/-- C7 witness: in store sC7 the triangle loop 6 holds the scrambled uses
[L3, L5, L4] of the cycle [L3, L4, L5]; `unscramble_loop` restores a
connected chain that is a permutation of the original uses. -/
theorem C7_witness :
    ∃ r : List Use,
      unscramble_loop sC7 6 =
        some (modifyObj sC7 6 (fun o => { o with used := r })) ∧
      r.Perm (getObj sC7 6).used ∧
      ∀ i : Nat, ∀ hi : i + 1 < r.length,
        trailPt sC7 (r.get ⟨i, Nat.lt_of_succ_lt hi⟩) = leadPt sC7 (r.get ⟨i + 1, hi⟩) :=
  C7_unscramble_valid_cycle sC7 6 [⟨0, 3⟩, ⟨0, 4⟩, ⟨0, 5⟩] (by decide) (by decide)

end gmod




